import Mathlib

/-!
# Two-phase-commit order fulfilment: coordinator, participants, orchestrator

A shallow embedding of the Go packages `coordinator`, `store`, `delivery` and `orders`.

* A Go `map[string]V` is an association list (`GoMap V`); lookups, stores and deletes are the
  functions `GoMap.get?`, `GoMap.set` and `GoMap.delete`.
* A method with a pointer receiver takes the receiver's state and returns the new state next to
  the Go results.  A Go `error` is an `Option String` holding the message (`none` is `nil`).
* Locks are not modelled: every method body runs under its own mutex, so a sequential run of the
  body is what one call does.
* `time.Now()`, the generated transaction ID and the order in which `range` visits a map are
  inputs of the functions that use them.
* Go `int` is 64 bits wide; sums and differences are reduced by `wrapInt`.
-/

namespace DistributedTransactions

/-! ## Go maps and integers -/

/-- A Go `map[string]V`: the first entry carrying a key is the live one. -/
abbrev GoMap (V : Type) := List (String × V)

namespace GoMap

/-- The lookup `v, exists := m[k]`. -/
def get? {V : Type} : GoMap V → String → Option V
  | [], _ => none
  | (k', v) :: rest, k => if k' = k then some v else get? rest k

/-- The store `m[k] = v`: overwrites the entry of `k` when there is one, adds one otherwise. -/
def set {V : Type} : GoMap V → String → V → GoMap V
  | [], k, v => [(k, v)]
  | (k', v') :: rest, k, v => if k' = k then (k, v) :: rest else (k', v') :: set rest k v

/-- The removal `delete(m, k)`. -/
def delete {V : Type} (m : GoMap V) (k : String) : GoMap V :=
  m.filter (fun e => decide (e.1 ≠ k))

/-- The keys of the map. -/
def keys {V : Type} (m : GoMap V) : List String :=
  m.map Prod.fst

/-- The read `m[k]` of a `map[string]int`: a missing key reads as zero. -/
def index (m : GoMap Int) (k : String) : Int :=
  (get? m k).getD 0

end GoMap

/-- Reduction of an integer to the range of a 64-bit signed Go `int`. -/
def wrapInt (x : Int) : Int :=
  (x + 2 ^ 63) % 2 ^ 64 - 2 ^ 63

/-- A sequence of keys is an order in which `range` may visit the map: every key, once. -/
def RangeOrder {V : Type} (m : GoMap V) (order : List String) : Prop :=
  List.Perm order (GoMap.keys m)

/-! ## Package `coordinator` -/

/-- The type `TransactionState` with its four constants. -/
inductive TransactionState where
  | Initialized
  | Prepared
  | Committed
  | Aborted
  deriving DecidableEq, Repr

/-- The struct `Transaction` (without its mutex); times are nanoseconds. -/
structure Transaction where
  ID : String
  State : TransactionState
  CreatedAt : Nat
  Timeout : Int
  deriving DecidableEq, Repr

/-- The struct `Coordinator`: the transaction registry. -/
structure Coordinator where
  transactions : GoMap Transaction
  deriving DecidableEq, Repr

/-- The constructor `NewCoordinator`. -/
def NewCoordinator : Coordinator :=
  { transactions := [] }

/-- The method `Coordinator.BeginTransaction`; `now` is the value of `time.Now()`. -/
def Coordinator.BeginTransaction (c : Coordinator) (transactionID : String) (now : Nat)
    (timeout : Int) : Coordinator × Option Transaction × Option String :=
  match GoMap.get? c.transactions transactionID with
  | some _ => (c, none, some "transaction already exists")
  | none =>
    let tx : Transaction :=
      { ID := transactionID, State := .Initialized, CreatedAt := now, Timeout := timeout }
    ({ transactions := GoMap.set c.transactions transactionID tx }, some tx, none)

/-- The method `Coordinator.Prepare`: the participants are not called, only the state moves. -/
def Coordinator.Prepare (c : Coordinator) (transactionID : String) (_participants : List String) :
    Coordinator × Option String :=
  match GoMap.get? c.transactions transactionID with
  | none => (c, some "transaction not found")
  | some tx =>
    if tx.State ≠ .Initialized then (c, some "invalid transaction state")
    else ({ transactions := GoMap.set c.transactions transactionID { tx with State := .Prepared } },
      none)

/-- The method `Coordinator.Commit`: the participants are not called, only the state moves. -/
def Coordinator.Commit (c : Coordinator) (transactionID : String) : Coordinator × Option String :=
  match GoMap.get? c.transactions transactionID with
  | none => (c, some "transaction not found")
  | some tx =>
    if tx.State ≠ .Prepared then (c, some "transaction not in prepared state")
    else ({ transactions := GoMap.set c.transactions transactionID { tx with State := .Committed } },
      none)

/-- The method `Coordinator.Abort`: no test of the current state. -/
def Coordinator.Abort (c : Coordinator) (transactionID : String) : Coordinator × Option String :=
  match GoMap.get? c.transactions transactionID with
  | none => (c, some "transaction not found")
  | some tx =>
    ({ transactions := GoMap.set c.transactions transactionID { tx with State := .Aborted } }, none)

/-- The method `Coordinator.GetTransactionState`. -/
def Coordinator.GetTransactionState (c : Coordinator) (transactionID : String) :
    TransactionState × Option String :=
  match GoMap.get? c.transactions transactionID with
  | none => (.Initialized, some "transaction not found")
  | some tx => (tx.State, none)

/-- One call of a state-changing coordinator method, with its arguments. -/
inductive CoordOp where
  | begin (transactionID : String) (now : Nat) (timeout : Int)
  | prepare (transactionID : String) (participants : List String)
  | commit (transactionID : String)
  | abort (transactionID : String)
  deriving DecidableEq, Repr

/-- The coordinator after one call. -/
def Coordinator.step (c : Coordinator) : CoordOp → Coordinator
  | .begin id now timeout => (c.BeginTransaction id now timeout).1
  | .prepare id ps => (c.Prepare id ps).1
  | .commit id => (c.Commit id).1
  | .abort id => (c.Abort id).1

/-- The coordinator after a sequence of calls, first call first. -/
def Coordinator.run (c : Coordinator) (ops : List CoordOp) : Coordinator :=
  ops.foldl Coordinator.step c

/-- The struct `BaseParticipant`: the per-transaction state tracker. -/
structure BaseParticipant where
  states : GoMap TransactionState
  deriving DecidableEq, Repr

/-- The constructor `NewBaseParticipant`. -/
def NewBaseParticipant : BaseParticipant :=
  { states := [] }

/-- The method `BaseParticipant.Prepare`. -/
def BaseParticipant.Prepare (p : BaseParticipant) (transactionID : String) :
    BaseParticipant × Option String :=
  match GoMap.get? p.states transactionID with
  | some state =>
    if state ≠ .Initialized then (p, some "invalid transaction state")
    else ({ states := GoMap.set p.states transactionID .Prepared }, none)
  | none => ({ states := GoMap.set p.states transactionID .Prepared }, none)

/-- The method `BaseParticipant.Commit`. -/
def BaseParticipant.Commit (p : BaseParticipant) (transactionID : String) :
    BaseParticipant × Option String :=
  match GoMap.get? p.states transactionID with
  | some state =>
    if state ≠ .Prepared then (p, some "transaction not in prepared state")
    else ({ states := GoMap.set p.states transactionID .Committed }, none)
  | none => (p, some "transaction not in prepared state")

/-- The method `BaseParticipant.Abort`. -/
def BaseParticipant.Abort (p : BaseParticipant) (transactionID : String) :
    BaseParticipant × Option String :=
  ({ states := GoMap.set p.states transactionID .Aborted }, none)

/-- The method `BaseParticipant.GetState`. -/
def BaseParticipant.GetState (p : BaseParticipant) (transactionID : String) :
    TransactionState × Option String :=
  match GoMap.get? p.states transactionID with
  | some state => (state, none)
  | none => (.Initialized, some "transaction not found")

/-! ## Package `store` -/

/-- The struct `Store`: the embedded tracker, the inventory and the pending orders. -/
structure Store where
  BaseParticipant : BaseParticipant
  items : GoMap Int
  orders : GoMap (GoMap Int)
  deriving DecidableEq, Repr

/-- The constructor `NewStore`. -/
def NewStore : Store :=
  { BaseParticipant := NewBaseParticipant, items := [], orders := [] }

/-- The method `Store.AddItem`. -/
def Store.AddItem (s : Store) (itemID : String) (quantity : Int) : Store :=
  { s with items := GoMap.set s.items itemID (wrapInt (GoMap.index s.items itemID + quantity)) }

/-- The stock test shared by `Store.PlaceOrder` and `Store.Prepare`: some entry of the order asks
for more than the inventory holds.  The loop only reads, so the visiting order is immaterial. -/
def Store.insufficient (inventory : GoMap Int) (order : GoMap Int) : Bool :=
  order.any (fun e => decide (GoMap.index inventory e.1 < e.2))

/-- The loop `for itemID, quantity := range order { s.items[itemID] -= quantity }`. -/
def Store.reserve (inventory : GoMap Int) (order : GoMap Int) : GoMap Int :=
  order.foldl (fun inv e => GoMap.set inv e.1 (wrapInt (GoMap.index inv e.1 - e.2))) inventory

/-- The loop `for itemID, quantity := range order { s.items[itemID] += quantity }`. -/
def Store.release (inventory : GoMap Int) (order : GoMap Int) : GoMap Int :=
  order.foldl (fun inv e => GoMap.set inv e.1 (wrapInt (GoMap.index inv e.1 + e.2))) inventory

/-- The method `Store.Prepare`. -/
def Store.Prepare (s : Store) (transactionID : String) : Store × Option String :=
  match GoMap.get? s.orders transactionID with
  | none => (s, some "order not found")
  | some order =>
    if Store.insufficient s.items order then (s, some "insufficient items")
    else
      let r := s.BaseParticipant.Prepare transactionID
      ({ s with items := Store.reserve s.items order, BaseParticipant := r.1 }, r.2)

/-- The method `Store.Commit`. -/
def Store.Commit (s : Store) (transactionID : String) : Store × Option String :=
  let r := s.BaseParticipant.Commit transactionID
  ({ s with orders := GoMap.delete s.orders transactionID, BaseParticipant := r.1 }, r.2)

/-- The method `Store.Abort`. -/
def Store.Abort (s : Store) (transactionID : String) : Store × Option String :=
  let s1 : Store :=
    match GoMap.get? s.orders transactionID with
    | some order =>
      { s with items := Store.release s.items order,
               orders := GoMap.delete s.orders transactionID }
    | none => s
  let r := s1.BaseParticipant.Abort transactionID
  ({ s1 with BaseParticipant := r.1 }, r.2)

/-- The method `Store.PlaceOrder`. -/
def Store.PlaceOrder (s : Store) (transactionID : String) (items : GoMap Int) :
    Store × Option String :=
  if Store.insufficient s.items items then (s, some "insufficient items")
  else ({ s with orders := GoMap.set s.orders transactionID items }, none)

/-- The promoted method `Store.GetState`. -/
def Store.GetState (s : Store) (transactionID : String) : TransactionState × Option String :=
  s.BaseParticipant.GetState transactionID

/-! ## Package `delivery` -/

/-- The struct `DeliveryAgent`. -/
structure DeliveryAgent where
  ID : String
  Available : Bool
  Location : String
  deriving DecidableEq, Repr

/-- The struct `Delivery`: the embedded tracker, the agents and the assignments. -/
structure Delivery where
  BaseParticipant : BaseParticipant
  agents : GoMap DeliveryAgent
  orders : GoMap String
  deriving DecidableEq, Repr

/-- The constructor `NewDelivery`. -/
def NewDelivery : Delivery :=
  { BaseParticipant := NewBaseParticipant, agents := [], orders := [] }

/-- The method `Delivery.AddAgent`. -/
def Delivery.AddAgent (d : Delivery) (agentID : String) (location : String) : Delivery :=
  { d with agents :=
      GoMap.set d.agents agentID { ID := agentID, Available := true, Location := location } }

/-- The method `Delivery.Prepare`. -/
def Delivery.Prepare (d : Delivery) (transactionID : String) : Delivery × Option String :=
  match GoMap.get? d.orders transactionID with
  | none => (d, some "order not found")
  | some agentID =>
    match GoMap.get? d.agents agentID with
    | none => (d, some "delivery agent not available")
    | some agent =>
      if !agent.Available then (d, some "delivery agent not available")
      else
        let r := d.BaseParticipant.Prepare transactionID
        ({ d with agents := GoMap.set d.agents agentID { agent with Available := false },
                  BaseParticipant := r.1 }, r.2)

/-- The method `Delivery.Commit`. -/
def Delivery.Commit (d : Delivery) (transactionID : String) : Delivery × Option String :=
  let r := d.BaseParticipant.Commit transactionID
  ({ d with orders := GoMap.delete d.orders transactionID, BaseParticipant := r.1 }, r.2)

/-- The method `Delivery.Abort`. -/
def Delivery.Abort (d : Delivery) (transactionID : String) : Delivery × Option String :=
  let d1 : Delivery :=
    match GoMap.get? d.orders transactionID with
    | some agentID =>
      match GoMap.get? d.agents agentID with
      | some agent =>
        { d with agents := GoMap.set d.agents agentID { agent with Available := true },
                 orders := GoMap.delete d.orders transactionID }
      | none => { d with orders := GoMap.delete d.orders transactionID }
    | none => d
  let r := d1.BaseParticipant.Abort transactionID
  ({ d1 with BaseParticipant := r.1 }, r.2)

/-- The method `Delivery.AssignAgent`; `order` is the sequence of keys in which the `range` loop
visits `d.agents`.  The first visited agent that is available is taken. -/
def Delivery.AssignAgent (d : Delivery) (order : List String) (transactionID : String)
    (location : String) : Delivery × Option String :=
  match order with
  | [] => (d, some "no delivery agents available")
  | k :: rest =>
    match GoMap.get? d.agents k with
    | some agent =>
      if agent.Available then
        ({ d with agents := GoMap.set d.agents k { agent with Available := false },
                  orders := GoMap.set d.orders transactionID agent.ID }, none)
      else Delivery.AssignAgent d rest transactionID location
    | none => Delivery.AssignAgent d rest transactionID location

/-- The promoted method `Delivery.GetState`. -/
def Delivery.GetState (d : Delivery) (transactionID : String) : TransactionState × Option String :=
  d.BaseParticipant.GetState transactionID

/-! ## Package `orders` -/

/-- The struct `Order`. -/
structure Order where
  ID : String
  Items : GoMap Int
  Location : String
  Status : String
  CreatedAt : Nat
  deriving DecidableEq, Repr

/-- The struct `OrderService`, holding the three services it points to and the order registry. -/
structure OrderService where
  coordinator : Coordinator
  store : Store
  delivery : Delivery
  orders : GoMap Order
  deriving DecidableEq, Repr

/-- The constructor `NewOrderService`. -/
def NewOrderService (coordinator : Coordinator) (store : Store) (delivery : Delivery) :
    OrderService :=
  { coordinator := coordinator, store := store, delivery := delivery, orders := [] }

/-- The duration `10*time.Minute`, in nanoseconds. -/
def tenMinutes : Int :=
  10 * 60 * 1000000000

/-- The method `OrderService.PlaceOrder`.  `transactionID` is the value returned by
`generateTransactionID`, `createdAt` and `txCreatedAt` the two readings of `time.Now()`, and
`agentOrder` the order in which `AssignAgent` ranges over the agents. -/
def OrderService.PlaceOrder (o : OrderService) (transactionID : String) (createdAt : Nat)
    (txCreatedAt : Nat) (agentOrder : List String) (items : GoMap Int) (location : String) :
    OrderService × Option Order × Option String :=
  let order : Order :=
    { ID := transactionID, Items := items, Location := location, Status := "pending",
      CreatedAt := createdAt }
  let o1 : OrderService := { o with orders := GoMap.set o.orders transactionID order }
  match o1.coordinator.BeginTransaction transactionID txCreatedAt tenMinutes with
  | (c, _, some err) => ({ o1 with coordinator := c }, none, some err)
  | (c, _, none) =>
    let o2 : OrderService := { o1 with coordinator := c }
    match o2.store.PlaceOrder transactionID items with
    | (st, some err) =>
      ({ o2 with store := st, coordinator := (o2.coordinator.Abort transactionID).1 },
        none, some err)
    | (st, none) =>
      let o3 : OrderService := { o2 with store := st }
      match o3.delivery.AssignAgent agentOrder transactionID location with
      | (dl, some err) =>
        ({ o3 with delivery := dl, coordinator := (o3.coordinator.Abort transactionID).1 },
          none, some err)
      | (dl, none) =>
        let o4 : OrderService := { o3 with delivery := dl }
        match o4.coordinator.Prepare transactionID ["store", "delivery"] with
        | (c1, some err) =>
          ({ o4 with coordinator := (c1.Abort transactionID).1 }, none, some err)
        | (c1, none) =>
          let o5 : OrderService := { o4 with coordinator := c1 }
          match o5.coordinator.Commit transactionID with
          | (c2, some err) =>
            ({ o5 with coordinator := (c2.Abort transactionID).1 }, none, some err)
          | (c2, none) =>
            let confirmed : Order := { order with Status := "confirmed" }
            ({ o5 with coordinator := c2,
                       orders := GoMap.set o5.orders transactionID confirmed },
              some confirmed, none)

/-- The method `OrderService.GetOrder`. -/
def OrderService.GetOrder (o : OrderService) (orderID : String) : Option Order × Option String :=
  match GoMap.get? o.orders orderID with
  | none => (none, some "order not found")
  | some order => (some order, none)

/-- The state that `main` builds before it places its order. -/
def mainService : OrderService :=
  NewOrderService NewCoordinator
    ((NewStore.AddItem "pizza" 5).AddItem "burger" 10)
    ((NewDelivery.AddAgent "agent1" "location1").AddAgent "agent2" "location2")

/-- The order that `main` places. -/
def mainItems : GoMap Int :=
  [("pizza", 2), ("burger", 1)]

/-! ## States used as examples -/

/-- A coordinator holding one transaction, `t`, in state `Committed`. -/
def committedCoordinator : Coordinator :=
  { transactions := [("t", { ID := "t", State := .Committed, CreatedAt := 0, Timeout := 0 })] }

/-- A store with stock, one pending order `t` and nothing recorded by its tracker. -/
def pendingStore : Store :=
  { BaseParticipant := NewBaseParticipant,
    items := [("pizza", 5), ("burger", 10)],
    orders := [("t", [("pizza", 2), ("burger", 1)])] }

/-- A delivery service whose only agent is assigned to `t`. -/
def pendingDelivery : Delivery :=
  { BaseParticipant := NewBaseParticipant,
    agents := [("agent1", { ID := "agent1", Available := false, Location := "location1" })],
    orders := [("t", "agent1")] }

/-- The state of `main` with both agents already taken. -/
def busyService : OrderService :=
  { mainService with
    delivery :=
      { BaseParticipant := NewBaseParticipant,
        agents := [("agent1", { ID := "agent1", Available := false, Location := "location1" }),
                   ("agent2", { ID := "agent2", Available := false, Location := "location2" })],
        orders := [] } }

/-- A store stocked with seven pizzas in which `t` has ordered two and has been prepared. -/
def preparedStore : Store :=
  (((NewStore.AddItem "pizza" 7).PlaceOrder "t" [("pizza", 2)]).1.Prepare "t").1

/-- A store stocked with five pizzas, without pending orders. -/
def stockedStore : Store :=
  NewStore.AddItem "pizza" 5

/-- A store holding the largest number of pizzas a Go `int` can count. -/
def fullStore : Store :=
  NewStore.AddItem "pizza" 9223372036854775807

/-- The store holding the largest count of pizzas, with a pending order `t` of minus one
pizza placed through `PlaceOrder`. -/
def overdrawnStore : Store :=
  (fullStore.PlaceOrder "t" [("pizza", -1)]).1

/-- The state of `main` after its order has been placed under the ID `tx1`. -/
def confirmedService : OrderService :=
  (mainService.PlaceOrder "tx1" 1 2 ["agent1", "agent2"] mainItems "customer_location").1

/-! ## Well-formed values and runs of the delivery service -/

/-- The value fits a 64-bit signed Go `int`. -/
def IsInt64 (x : Int) : Prop :=
  -2 ^ 63 ≤ x ∧ x < 2 ^ 63

instance IsInt64.decidable (x : Int) : Decidable (IsInt64 x) :=
  inferInstanceAs (Decidable (-2 ^ 63 ≤ x ∧ x < 2 ^ 63))

/-- Every stored agent carries its own key as `ID`, as `AddAgent` makes it. -/
def Delivery.AgentIDsMatch (d : Delivery) : Prop :=
  ∀ e ∈ d.agents, e.2.ID = e.1

instance Delivery.AgentIDsMatch.decidable (d : Delivery) : Decidable d.AgentIDsMatch :=
  inferInstanceAs (Decidable (∀ e ∈ d.agents, e.2.ID = e.1))

/-- Every agent named in an assignment exists and is unavailable, and no agent is named by two
transaction IDs. -/
def Delivery.NoDoubleAssignment (d : Delivery) : Prop :=
  (∀ t a, GoMap.get? d.orders t = some a →
    ∃ agent, GoMap.get? d.agents a = some agent ∧ agent.Available = false) ∧
  (∀ t1 t2 a, GoMap.get? d.orders t1 = some a → GoMap.get? d.orders t2 = some a → t1 = t2)

/-- One call of a state-changing method of the delivery service, with its arguments; for
`AssignAgent` also the order in which its loop visits the agents. -/
inductive DeliveryOp where
  | addAgent (agentID : String) (location : String)
  | assignAgent (order : List String) (transactionID : String) (location : String)
  | prepare (transactionID : String)
  | commit (transactionID : String)
  | abort (transactionID : String)
  deriving DecidableEq, Repr

/-- The delivery service after one call. -/
def Delivery.step (d : Delivery) : DeliveryOp → Delivery
  | .addAgent agentID location => d.AddAgent agentID location
  | .assignAgent order id location => (d.AssignAgent order id location).1
  | .prepare id => (d.Prepare id).1
  | .commit id => (d.Commit id).1
  | .abort id => (d.Abort id).1

/-- The delivery service after a sequence of calls, first call first. -/
def Delivery.run (d : Delivery) (ops : List DeliveryOp) : Delivery :=
  ops.foldl Delivery.step d

/-- The agent IDs that the `AddAgent` calls of a sequence add, in order. -/
def addedAgentIDs : List DeliveryOp → List String
  | [] => []
  | .addAgent agentID _ :: rest => agentID :: addedAgentIDs rest
  | _ :: rest => addedAgentIDs rest

/-! ## Facts about Go maps -/

theorem GoMap.get?_set_self {V : Type} (m : GoMap V) (k : String) (v : V) :
    GoMap.get? (GoMap.set m k v) k = some v := by
  induction m with
  | nil => simp [GoMap.set, GoMap.get?]
  | cons e rest ih =>
    obtain ⟨k', v'⟩ := e
    by_cases h : k' = k <;> simp [GoMap.set, GoMap.get?, h, ih]

theorem GoMap.get?_set_ne {V : Type} (m : GoMap V) {k k' : String} (h : k ≠ k') (v : V) :
    GoMap.get? (GoMap.set m k v) k' = GoMap.get? m k' := by
  induction m with
  | nil => simp [GoMap.set, GoMap.get?, h]
  | cons e rest ih =>
    obtain ⟨k0, v0⟩ := e
    by_cases h0 : k0 = k
    · subst h0
      simp [GoMap.set, GoMap.get?, h]
    · by_cases h1 : k0 = k'
      · subst h1
        simp [GoMap.set, GoMap.get?, h0]
      · simp [GoMap.set, GoMap.get?, h0, h1, ih]

theorem GoMap.get?_delete_self {V : Type} (m : GoMap V) (k : String) :
    GoMap.get? (GoMap.delete m k) k = none := by
  induction m with
  | nil => simp [GoMap.delete, GoMap.get?]
  | cons e rest ih =>
    obtain ⟨k0, v0⟩ := e
    by_cases h0 : k0 = k
    · simpa [GoMap.delete, h0] using ih
    · simpa [GoMap.delete, GoMap.get?, h0] using ih

theorem GoMap.get?_delete_ne {V : Type} (m : GoMap V) {k k' : String} (h : k ≠ k') :
    GoMap.get? (GoMap.delete m k) k' = GoMap.get? m k' := by
  induction m with
  | nil => simp [GoMap.delete, GoMap.get?]
  | cons e rest ih =>
    obtain ⟨k0, v0⟩ := e
    by_cases h0 : k0 = k
    · subst h0
      simpa [GoMap.delete, GoMap.get?, h] using ih
    · by_cases h1 : k0 = k'
      · subst h1
        simp [GoMap.delete, GoMap.get?, h0]
      · simpa [GoMap.delete, GoMap.get?, h0, h1] using ih

theorem GoMap.set_set {V : Type} (m : GoMap V) (k : String) (v w : V) :
    GoMap.set (GoMap.set m k v) k w = GoMap.set m k w := by
  induction m with
  | nil => simp [GoMap.set]
  | cons e rest ih =>
    obtain ⟨k0, v0⟩ := e
    by_cases h0 : k0 = k <;> simp [GoMap.set, h0, ih]

theorem GoMap.delete_of_get?_none {V : Type} (m : GoMap V) (k : String)
    (h : GoMap.get? m k = none) : GoMap.delete m k = m := by
  induction m with
  | nil => simp [GoMap.delete]
  | cons e rest ih =>
    obtain ⟨k0, v0⟩ := e
    by_cases h0 : k0 = k
    · simp [GoMap.get?, h0] at h
    · simp only [GoMap.get?, h0, if_false] at h
      have hrest : List.filter (fun e : String × V => decide (e.1 ≠ k)) rest = rest := ih h
      show List.filter _ ((k0, v0) :: rest) = (k0, v0) :: rest
      rw [List.filter_cons, hrest]
      simp [h0]

theorem GoMap.delete_delete {V : Type} (m : GoMap V) (k : String) :
    GoMap.delete (GoMap.delete m k) k = GoMap.delete m k :=
  GoMap.delete_of_get?_none _ _ (GoMap.get?_delete_self m k)

theorem GoMap.get?_eq_none_iff {V : Type} (m : GoMap V) (k : String) :
    GoMap.get? m k = none ↔ k ∉ GoMap.keys m := by
  induction m with
  | nil => simp [GoMap.get?, GoMap.keys]
  | cons e rest ih =>
    obtain ⟨k0, v0⟩ := e
    by_cases h0 : k0 = k
    · simp [GoMap.get?, GoMap.keys, h0]
    · have h1 : ¬ k = k0 := fun h => h0 h.symm
      simpa [GoMap.get?, GoMap.keys, h0, h1] using ih

/-! ## The coordinator's state machine -/

theorem Coordinator.GetTransactionState_eq_iff (c : Coordinator) (id : String)
    (st : TransactionState) :
    c.GetTransactionState id = (st, none) ↔
      ∃ tx, GoMap.get? c.transactions id = some tx ∧ tx.State = st := by
  unfold Coordinator.GetTransactionState
  cases h : GoMap.get? c.transactions id <;> simp

/-- Every coordinator call keeps a registered ID registered. -/
theorem Coordinator.step_registered (c : Coordinator) (op : CoordOp) (id : String)
    (h : GoMap.get? c.transactions id ≠ none) :
    GoMap.get? (c.step op).transactions id ≠ none := by
  cases op with
  | begin id' now timeout =>
    simp only [Coordinator.step, Coordinator.BeginTransaction]
    cases hg : GoMap.get? c.transactions id' with
    | some tx => simpa using h
    | none =>
      have hne : id' ≠ id := fun e => h (e ▸ hg)
      simpa [GoMap.get?_set_ne _ hne] using h
  | prepare id' ps =>
    simp only [Coordinator.step, Coordinator.Prepare]
    cases hg : GoMap.get? c.transactions id' with
    | none => simpa using h
    | some tx =>
      by_cases hs : tx.State = .Initialized
      · by_cases hid : id' = id
        · subst hid
          simp [hs, GoMap.get?_set_self]
        · simpa [hs, GoMap.get?_set_ne _ hid] using h
      · simpa [hs] using h
  | commit id' =>
    simp only [Coordinator.step, Coordinator.Commit]
    cases hg : GoMap.get? c.transactions id' with
    | none => simpa using h
    | some tx =>
      by_cases hs : tx.State = .Prepared
      · by_cases hid : id' = id
        · subst hid
          simp [hs, GoMap.get?_set_self]
        · simpa [hs, GoMap.get?_set_ne _ hid] using h
      · simpa [hs] using h
  | abort id' =>
    simp only [Coordinator.step, Coordinator.Abort]
    cases hg : GoMap.get? c.transactions id' with
    | none => simpa using h
    | some tx =>
      by_cases hid : id' = id
      · subst hid
        simp [GoMap.get?_set_self]
      · simpa [GoMap.get?_set_ne _ hid] using h

/-- Every sequence of coordinator calls keeps a registered ID registered. -/
theorem Coordinator.run_registered (ops : List CoordOp) (c : Coordinator) (id : String)
    (h : GoMap.get? c.transactions id ≠ none) :
    GoMap.get? (c.run ops).transactions id ≠ none := by
  induction ops generalizing c with
  | nil => simpa [Coordinator.run] using h
  | cons op rest ih =>
    have := ih (c.step op) (Coordinator.step_registered c op id h)
    simpa [Coordinator.run] using this

/-- C6, as stated, fails: `Abort` on a `Committed` transaction succeeds and leaves it
`Aborted`, so `Committed` is not terminal. -/
theorem C6_committed_not_terminal :
    committedCoordinator.GetTransactionState "t" = (TransactionState.Committed, none) ∧
    (committedCoordinator.Abort "t").2 = none ∧
    (committedCoordinator.step (CoordOp.abort "t")).GetTransactionState "t"
      = (TransactionState.Aborted, none) := by
  decide

/-- C6, amended: `Aborted` is terminal under every coordinator call; `Committed` is kept by
`BeginTransaction`, `Prepare`, `Commit` with any arguments and by `Abort` of any other ID, while
`Abort` of the ID itself moves a `Committed` transaction to `Aborted`. -/
theorem C6_terminal_states (c : Coordinator) (id : String) (op : CoordOp) :
    (c.GetTransactionState id = (TransactionState.Aborted, none) →
      (c.step op).GetTransactionState id = (TransactionState.Aborted, none)) ∧
    (c.GetTransactionState id = (TransactionState.Committed, none) → op ≠ CoordOp.abort id →
      (c.step op).GetTransactionState id = (TransactionState.Committed, none)) ∧
    (c.GetTransactionState id = (TransactionState.Committed, none) →
      (c.step (CoordOp.abort id)).GetTransactionState id = (TransactionState.Aborted, none)) := by
  simp only [Coordinator.GetTransactionState_eq_iff]
  refine ⟨?_, ?_, ?_⟩
  · rintro ⟨tx, htx, hst⟩
    cases op with
    | begin id' now timeout =>
      simp only [Coordinator.step, Coordinator.BeginTransaction]
      cases hg : GoMap.get? c.transactions id' with
      | some tx' => exact ⟨tx, htx, hst⟩
      | none =>
        have hne : id' ≠ id := fun e => by subst e; simp [hg] at htx
        exact ⟨tx, by simpa [GoMap.get?_set_ne _ hne] using htx, hst⟩
    | prepare id' ps =>
      simp only [Coordinator.step, Coordinator.Prepare]
      cases hg : GoMap.get? c.transactions id' with
      | none => exact ⟨tx, htx, hst⟩
      | some tx' =>
        by_cases hid : id' = id
        · subst hid
          have : tx' = tx := by simpa [hg] using htx
          subst this
          simp [hst, htx]
        · by_cases hs : tx'.State = .Initialized
          · exact ⟨tx, by simpa [hs, GoMap.get?_set_ne _ hid] using htx, hst⟩
          · exact ⟨tx, by simpa [hs] using htx, hst⟩
    | commit id' =>
      simp only [Coordinator.step, Coordinator.Commit]
      cases hg : GoMap.get? c.transactions id' with
      | none => exact ⟨tx, htx, hst⟩
      | some tx' =>
        by_cases hid : id' = id
        · subst hid
          have : tx' = tx := by simpa [hg] using htx
          subst this
          simp [hst, htx]
        · by_cases hs : tx'.State = .Prepared
          · exact ⟨tx, by simpa [hs, GoMap.get?_set_ne _ hid] using htx, hst⟩
          · exact ⟨tx, by simpa [hs] using htx, hst⟩
    | abort id' =>
      simp only [Coordinator.step, Coordinator.Abort]
      cases hg : GoMap.get? c.transactions id' with
      | none => exact ⟨tx, htx, hst⟩
      | some tx' =>
        by_cases hid : id' = id
        · subst hid
          simp [GoMap.get?_set_self]
        · exact ⟨tx, by simpa [GoMap.get?_set_ne _ hid] using htx, hst⟩
  · rintro ⟨tx, htx, hst⟩ hop
    cases op with
    | begin id' now timeout =>
      simp only [Coordinator.step, Coordinator.BeginTransaction]
      cases hg : GoMap.get? c.transactions id' with
      | some tx' => exact ⟨tx, htx, hst⟩
      | none =>
        have hne : id' ≠ id := fun e => by subst e; simp [hg] at htx
        exact ⟨tx, by simpa [GoMap.get?_set_ne _ hne] using htx, hst⟩
    | prepare id' ps =>
      simp only [Coordinator.step, Coordinator.Prepare]
      cases hg : GoMap.get? c.transactions id' with
      | none => exact ⟨tx, htx, hst⟩
      | some tx' =>
        by_cases hid : id' = id
        · subst hid
          have : tx' = tx := by simpa [hg] using htx
          subst this
          simp [hst, htx]
        · by_cases hs : tx'.State = .Initialized
          · exact ⟨tx, by simpa [hs, GoMap.get?_set_ne _ hid] using htx, hst⟩
          · exact ⟨tx, by simpa [hs] using htx, hst⟩
    | commit id' =>
      simp only [Coordinator.step, Coordinator.Commit]
      cases hg : GoMap.get? c.transactions id' with
      | none => exact ⟨tx, htx, hst⟩
      | some tx' =>
        by_cases hid : id' = id
        · subst hid
          have : tx' = tx := by simpa [hg] using htx
          subst this
          simp [hst, htx]
        · by_cases hs : tx'.State = .Prepared
          · exact ⟨tx, by simpa [hs, GoMap.get?_set_ne _ hid] using htx, hst⟩
          · exact ⟨tx, by simpa [hs] using htx, hst⟩
    | abort id' =>
      have hid : id' ≠ id := fun e => hop (by rw [e])
      simp only [Coordinator.step, Coordinator.Abort]
      cases hg : GoMap.get? c.transactions id' with
      | none => exact ⟨tx, htx, hst⟩
      | some tx' => exact ⟨tx, by simpa [GoMap.get?_set_ne _ hid] using htx, hst⟩
  · rintro ⟨tx, htx, _⟩
    simp [Coordinator.step, Coordinator.Abort, htx, GoMap.get?_set_self]

/-- C6, amended, at the coordinator holding `t` in state `Committed`. -/
theorem C6_terminal_states_witness :
    (committedCoordinator.step (CoordOp.commit "t")).GetTransactionState "t"
      = (TransactionState.Committed, none) :=
  (C6_terminal_states committedCoordinator "t" (CoordOp.commit "t")).2.1 (by decide) (by decide)

/-- C7: `Coordinator.Prepare` succeeds exactly on a registered `Initialized` transaction and
then leaves it `Prepared`; `Coordinator.Commit` succeeds exactly on a registered `Prepared`
transaction and then leaves it `Committed`.  On an unregistered ID both return the not-found
error, in a wrong state each returns its invalid-state error, and in every failing case the
coordinator is returned unchanged. -/
theorem C7_prepare_commit_gate (c : Coordinator) (id : String) (ps : List String) :
    ((c.Prepare id ps).2 = none ↔
      c.GetTransactionState id = (TransactionState.Initialized, none)) ∧
    ((c.Prepare id ps).2 = none →
      (c.Prepare id ps).1.GetTransactionState id = (TransactionState.Prepared, none)) ∧
    (GoMap.get? c.transactions id = none →
      c.Prepare id ps = (c, some "transaction not found")) ∧
    (∀ tx, GoMap.get? c.transactions id = some tx → tx.State ≠ TransactionState.Initialized →
      c.Prepare id ps = (c, some "invalid transaction state")) ∧
    ((c.Commit id).2 = none ↔
      c.GetTransactionState id = (TransactionState.Prepared, none)) ∧
    ((c.Commit id).2 = none →
      (c.Commit id).1.GetTransactionState id = (TransactionState.Committed, none)) ∧
    (GoMap.get? c.transactions id = none →
      c.Commit id = (c, some "transaction not found")) ∧
    (∀ tx, GoMap.get? c.transactions id = some tx → tx.State ≠ TransactionState.Prepared →
      c.Commit id = (c, some "transaction not in prepared state")) := by
  simp only [Coordinator.GetTransactionState_eq_iff]
  refine ⟨?_, ?_, ?_, ?_, ?_, ?_, ?_, ?_⟩
  · unfold Coordinator.Prepare
    cases hg : GoMap.get? c.transactions id with
    | none => simp
    | some tx => by_cases hs : tx.State = .Initialized <;> simp [hs]
  · unfold Coordinator.Prepare
    cases hg : GoMap.get? c.transactions id with
    | none => simp
    | some tx => by_cases hs : tx.State = .Initialized <;> simp [hs, GoMap.get?_set_self]
  · intro hg
    simp [Coordinator.Prepare, hg]
  · intro tx hg hs
    simp [Coordinator.Prepare, hg, hs]
  · unfold Coordinator.Commit
    cases hg : GoMap.get? c.transactions id with
    | none => simp
    | some tx => by_cases hs : tx.State = .Prepared <;> simp [hs]
  · unfold Coordinator.Commit
    cases hg : GoMap.get? c.transactions id with
    | none => simp
    | some tx => by_cases hs : tx.State = .Prepared <;> simp [hs, GoMap.get?_set_self]
  · intro hg
    simp [Coordinator.Commit, hg]
  · intro tx hg hs
    simp [Coordinator.Commit, hg, hs]

/-- C7 at the coordinator holding `t` in state `Committed`: `Prepare` after `Commit` fails with
the invalid-state error and changes nothing. -/
theorem C7_prepare_commit_gate_witness :
    committedCoordinator.Prepare "t" ["store", "delivery"]
      = (committedCoordinator, some "invalid transaction state") :=
  (C7_prepare_commit_gate committedCoordinator "t" ["store", "delivery"]).2.2.2.1
    { ID := "t", State := .Committed, CreatedAt := 0, Timeout := 0 } (by decide) (by decide)

/-- C8: `Coordinator.BeginTransaction` returns the already-exists error exactly when the ID is
registered, and then returns the coordinator unchanged; on an unregistered ID it returns no
error, registers the ID in state `Initialized` with the given timeout and leaves every other
ID as it was.  After a successful `BeginTransaction` of an ID and any sequence of coordinator
calls, `BeginTransaction` of that ID fails with the already-exists error. -/
theorem C8_BeginTransaction (c : Coordinator) (id : String) (now : Nat) (timeout : Int) :
    ((c.BeginTransaction id now timeout).2.2 = some "transaction already exists" ↔
      GoMap.get? c.transactions id ≠ none) ∧
    (GoMap.get? c.transactions id ≠ none →
      c.BeginTransaction id now timeout = (c, none, some "transaction already exists")) ∧
    (GoMap.get? c.transactions id = none →
      (c.BeginTransaction id now timeout).2.2 = none ∧
      (c.BeginTransaction id now timeout).2.1
        = some { ID := id, State := .Initialized, CreatedAt := now, Timeout := timeout } ∧
      GoMap.get? (c.BeginTransaction id now timeout).1.transactions id
        = some { ID := id, State := .Initialized, CreatedAt := now, Timeout := timeout } ∧
      ∀ id', id' ≠ id →
        GoMap.get? (c.BeginTransaction id now timeout).1.transactions id'
          = GoMap.get? c.transactions id') ∧
    (GoMap.get? c.transactions id = none →
      ∀ (ops : List CoordOp) (now' : Nat) (timeout' : Int),
        ((c.BeginTransaction id now timeout).1.run ops).BeginTransaction id now' timeout'
          = ((c.BeginTransaction id now timeout).1.run ops, none,
              some "transaction already exists")) := by
  have hreg : ∀ (c' : Coordinator) (n : Nat) (t : Int), GoMap.get? c'.transactions id ≠ none →
      c'.BeginTransaction id n t = (c', none, some "transaction already exists") := by
    intro c' n t h
    unfold Coordinator.BeginTransaction
    cases hg : GoMap.get? c'.transactions id with
    | none => exact absurd hg h
    | some tx => rfl
  refine ⟨?_, hreg c now timeout, ?_, ?_⟩
  · unfold Coordinator.BeginTransaction
    cases hg : GoMap.get? c.transactions id <;> simp
  · intro hg
    refine ⟨?_, ?_, ?_, ?_⟩
    · simp [Coordinator.BeginTransaction, hg]
    · simp [Coordinator.BeginTransaction, hg]
    · simp [Coordinator.BeginTransaction, hg, GoMap.get?_set_self]
    · intro id' hne
      simp [Coordinator.BeginTransaction, hg, GoMap.get?_set_ne _ (Ne.symm hne)]
  · intro hg ops now' timeout'
    apply hreg
    apply Coordinator.run_registered
    simp [Coordinator.BeginTransaction, hg, GoMap.get?_set_self]

/-- C8 on the empty coordinator: after `BeginTransaction` of `t`, an `Abort` and a `Commit`, a
second `BeginTransaction` of `t` fails. -/
theorem C8_BeginTransaction_witness :
    (((NewCoordinator.BeginTransaction "t" 0 5).1.run
        [CoordOp.abort "t", CoordOp.commit "t"]).BeginTransaction "t" 1 7).2.2
      = some "transaction already exists" :=
  congrArg (fun r => r.2.2)
    ((C8_BeginTransaction NewCoordinator "t" 0 5).2.2.2 (by decide)
      [CoordOp.abort "t", CoordOp.commit "t"] 1 7)

/-! ## The generic tracker -/

/-- C10: the tracker's `Prepare` succeeds exactly when the ID has no recorded state or the
recorded state is `Initialized`, and then records `Prepared`; `Commit` succeeds exactly when the
recorded state is `Prepared`, and then records `Committed`; `Abort` always succeeds and records
`Aborted`; `GetState` returns the recorded state, or the not-found error when there is none.  A
failing `Prepare` or `Commit` returns the tracker unchanged, and no call changes what is
recorded for another ID. -/
theorem C10_tracker (p : BaseParticipant) (id : String) :
    ((p.Prepare id).2 = none ↔
      (GoMap.get? p.states id = none ∨
        GoMap.get? p.states id = some TransactionState.Initialized)) ∧
    ((p.Prepare id).2 = none →
      GoMap.get? (p.Prepare id).1.states id = some TransactionState.Prepared) ∧
    ((p.Prepare id).2 ≠ none → (p.Prepare id).1 = p) ∧
    ((p.Commit id).2 = none ↔ GoMap.get? p.states id = some TransactionState.Prepared) ∧
    ((p.Commit id).2 = none →
      GoMap.get? (p.Commit id).1.states id = some TransactionState.Committed) ∧
    ((p.Commit id).2 ≠ none → (p.Commit id).1 = p) ∧
    ((p.Abort id).2 = none ∧
      GoMap.get? (p.Abort id).1.states id = some TransactionState.Aborted) ∧
    (∀ st, GoMap.get? p.states id = some st → p.GetState id = (st, none)) ∧
    (GoMap.get? p.states id = none →
      p.GetState id = (TransactionState.Initialized, some "transaction not found")) ∧
    (∀ id', id' ≠ id →
      GoMap.get? (p.Prepare id).1.states id' = GoMap.get? p.states id' ∧
      GoMap.get? (p.Commit id).1.states id' = GoMap.get? p.states id' ∧
      GoMap.get? (p.Abort id).1.states id' = GoMap.get? p.states id') := by
  refine ⟨?_, ?_, ?_, ?_, ?_, ?_, ?_, ?_, ?_, ?_⟩
  · unfold BaseParticipant.Prepare
    cases hg : GoMap.get? p.states id with
    | none => simp
    | some st => by_cases hs : st = .Initialized <;> simp [hs]
  · unfold BaseParticipant.Prepare
    cases hg : GoMap.get? p.states id with
    | none => simp [GoMap.get?_set_self]
    | some st => by_cases hs : st = .Initialized <;> simp [hs, GoMap.get?_set_self]
  · unfold BaseParticipant.Prepare
    cases hg : GoMap.get? p.states id with
    | none => simp
    | some st => by_cases hs : st = .Initialized <;> simp [hs]
  · unfold BaseParticipant.Commit
    cases hg : GoMap.get? p.states id with
    | none => simp
    | some st => by_cases hs : st = .Prepared <;> simp [hs]
  · unfold BaseParticipant.Commit
    cases hg : GoMap.get? p.states id with
    | none => simp
    | some st => by_cases hs : st = .Prepared <;> simp [hs, GoMap.get?_set_self]
  · unfold BaseParticipant.Commit
    cases hg : GoMap.get? p.states id with
    | none => simp
    | some st => by_cases hs : st = .Prepared <;> simp [hs]
  · simp [BaseParticipant.Abort, GoMap.get?_set_self]
  · intro st hg
    simp [BaseParticipant.GetState, hg]
  · intro hg
    simp [BaseParticipant.GetState, hg]
  · intro id' hne
    have hne' : id ≠ id' := Ne.symm hne
    refine ⟨?_, ?_, ?_⟩
    · unfold BaseParticipant.Prepare
      cases hg : GoMap.get? p.states id with
      | none => simp [GoMap.get?_set_ne _ hne']
      | some st => by_cases hs : st = .Initialized <;> simp [hs, GoMap.get?_set_ne _ hne']
    · unfold BaseParticipant.Commit
      cases hg : GoMap.get? p.states id with
      | none => simp
      | some st => by_cases hs : st = .Prepared <;> simp [hs, GoMap.get?_set_ne _ hne']
    · simp [BaseParticipant.Abort, GoMap.get?_set_ne _ hne']

/-- C10 on a tracker that has `t` recorded as `Committed`: a `Prepare` of `t` fails and
returns the tracker unchanged. -/
theorem C10_tracker_witness :
    ((⟨[("t", TransactionState.Committed)]⟩ : BaseParticipant).Prepare "t").1
      = ⟨[("t", TransactionState.Committed)]⟩ :=
  (C10_tracker ⟨[("t", TransactionState.Committed)]⟩ "t").2.2.1 (by decide)

/-! ## Abort, twice -/

theorem BaseParticipant.Abort_Abort (p : BaseParticipant) (id : String) :
    (p.Abort id).1.Abort id = ((p.Abort id).1, none) := by
  simp [BaseParticipant.Abort, GoMap.set_set]

theorem Store.Abort_clears_order (s : Store) (id : String) :
    GoMap.get? (s.Abort id).1.orders id = none := by
  unfold Store.Abort
  cases hg : GoMap.get? s.orders id with
  | none => simpa using hg
  | some order => simp [GoMap.get?_delete_self]

theorem Delivery.Abort_clears_assignment (d : Delivery) (id : String) :
    GoMap.get? (d.Abort id).1.orders id = none := by
  unfold Delivery.Abort
  cases hg : GoMap.get? d.orders id with
  | none => simpa using hg
  | some agentID =>
    cases ha : GoMap.get? d.agents agentID <;> simp [ha, GoMap.get?_delete_self]

/-- C9: on the coordinator (for a registered ID), on the store and on the delivery service,
`Abort` returns no error, and a second `Abort` of the same ID returns no error and the very
state the first one left. -/
theorem C9_abort_idempotent (c : Coordinator) (s : Store) (d : Delivery) (id : String) :
    (GoMap.get? c.transactions id ≠ none →
      (c.Abort id).2 = none ∧ (c.Abort id).1.Abort id = ((c.Abort id).1, none)) ∧
    (s.Abort id).2 = none ∧ (s.Abort id).1.Abort id = ((s.Abort id).1, none) ∧
    (d.Abort id).2 = none ∧ (d.Abort id).1.Abort id = ((d.Abort id).1, none) := by
  refine ⟨?_, ?_, ?_, ?_, ?_⟩
  · intro hreg
    unfold Coordinator.Abort
    cases hg : GoMap.get? c.transactions id with
    | none => exact absurd hg hreg
    | some tx => simp [GoMap.get?_set_self, GoMap.set_set]
  · simp [Store.Abort, BaseParticipant.Abort]
  · have h1 := Store.Abort_clears_order s id
    have h2 : (s.Abort id).1.BaseParticipant = (s.BaseParticipant.Abort id).1 := by
      unfold Store.Abort
      cases hg : GoMap.get? s.orders id <;> rfl
    generalize s.Abort id = r at h1 h2
    obtain ⟨s', e⟩ := r
    simp only at h1 h2
    unfold Store.Abort
    simp only [h1, h2, BaseParticipant.Abort_Abort]
    cases s'
    simp_all
  · simp [Delivery.Abort, BaseParticipant.Abort]
  · have h1 := Delivery.Abort_clears_assignment d id
    have h2 : (d.Abort id).1.BaseParticipant = (d.BaseParticipant.Abort id).1 := by
      unfold Delivery.Abort
      cases hg : GoMap.get? d.orders id with
      | none => rfl
      | some agentID => cases ha : GoMap.get? d.agents agentID <;> simp [ha]
    generalize d.Abort id = r at h1 h2
    obtain ⟨d', e⟩ := r
    simp only at h1 h2
    unfold Delivery.Abort
    simp only [h1, h2, BaseParticipant.Abort_Abort]
    cases d'
    simp_all

/-- C9 at a committed coordinator transaction, a store with a pending order and a delivery
service with an assignment. -/
theorem C9_abort_idempotent_witness :
    ((committedCoordinator.Abort "t").2 = none ∧
      (committedCoordinator.Abort "t").1.Abort "t" = ((committedCoordinator.Abort "t").1, none)) ∧
    (pendingStore.Abort "t").1.Abort "t" = ((pendingStore.Abort "t").1, none) ∧
    (pendingDelivery.Abort "t").1.Abort "t" = ((pendingDelivery.Abort "t").1, none) :=
  ⟨(C9_abort_idempotent committedCoordinator pendingStore pendingDelivery "t").1 (by decide),
    (C9_abort_idempotent committedCoordinator pendingStore pendingDelivery "t").2.2.1,
    (C9_abort_idempotent committedCoordinator pendingStore pendingDelivery "t").2.2.2.2⟩

/-! ## The orchestrator -/

theorem Store.insufficient_eq_false (inventory order : GoMap Int)
    (h : ∀ e ∈ order, e.2 ≤ GoMap.index inventory e.1) :
    Store.insufficient inventory order = false := by
  unfold Store.insufficient
  rw [List.any_eq_false]
  intro e he
  simpa using h e he

theorem Store.insufficient_eq_true (inventory order : GoMap Int)
    (h : ∃ e ∈ order, GoMap.index inventory e.1 < e.2) :
    Store.insufficient inventory order = true := by
  unfold Store.insufficient
  rw [List.any_eq_true]
  obtain ⟨e, he, hlt⟩ := h
  exact ⟨e, he, by simpa using hlt⟩

/-- With no available agent, `AssignAgent` fails and changes nothing, in whatever order it
visits the agents. -/
theorem Delivery.AssignAgent_none_available (d : Delivery) (order : List String)
    (id location : String)
    (h : ∀ k agent, GoMap.get? d.agents k = some agent → agent.Available = false) :
    d.AssignAgent order id location = (d, some "no delivery agents available") := by
  induction order with
  | nil => rfl
  | cons k rest ih =>
    unfold Delivery.AssignAgent
    cases hg : GoMap.get? d.agents k with
    | none => simpa using ih
    | some agent =>
      have := h k agent hg
      simpa [this] using ih

/-- When the visiting order reaches an available agent, `AssignAgent` succeeds: it takes one
agent that was available, marks it unavailable and records its ID for the transaction. -/
theorem Delivery.AssignAgent_available (d : Delivery) (order : List String)
    (id location : String)
    (h : ∃ k ∈ order, ∃ agent, GoMap.get? d.agents k = some agent ∧ agent.Available = true) :
    ∃ k agent, k ∈ order ∧ GoMap.get? d.agents k = some agent ∧ agent.Available = true ∧
      d.AssignAgent order id location =
        ({ d with agents := GoMap.set d.agents k { agent with Available := false },
                  orders := GoMap.set d.orders id agent.ID }, none) := by
  induction order with
  | nil =>
    obtain ⟨k, hk, _⟩ := h
    simp at hk
  | cons k0 rest ih =>
    unfold Delivery.AssignAgent
    cases hg : GoMap.get? d.agents k0 with
    | none =>
      have hrest : ∃ k ∈ rest, ∃ agent,
          GoMap.get? d.agents k = some agent ∧ agent.Available = true := by
        obtain ⟨k, hk, agent, hget, hav⟩ := h
        rcases List.mem_cons.mp hk with rfl | hk'
        · simp [hg] at hget
        · exact ⟨k, hk', agent, hget, hav⟩
      obtain ⟨k, agent, hk, hget, hav, heq⟩ := ih hrest
      exact ⟨k, agent, List.mem_cons_of_mem _ hk, hget, hav, by simpa using heq⟩
    | some agent0 =>
      by_cases hav0 : agent0.Available = true
      · exact ⟨k0, agent0, List.mem_cons_self _ _, hg, hav0, by simp [hav0]⟩
      · have hrest : ∃ k ∈ rest, ∃ agent,
            GoMap.get? d.agents k = some agent ∧ agent.Available = true := by
          obtain ⟨k, hk, agent, hget, hav⟩ := h
          rcases List.mem_cons.mp hk with rfl | hk'
          · rw [hg] at hget
            cases hget
            exact absurd hav hav0
          · exact ⟨k, hk', agent, hget, hav⟩
        obtain ⟨k, agent, hk, hget, hav, heq⟩ := ih hrest
        exact ⟨k, agent, List.mem_cons_of_mem _ hk, hget, hav, by simpa [hav0] using heq⟩

/-- A `range` order reaches every key that the map holds. -/
theorem RangeOrder.mem_of_get? {V : Type} {m : GoMap V} {order : List String}
    (horder : RangeOrder m order) {k : String} {v : V} (h : GoMap.get? m k = some v) :
    k ∈ order := by
  have hk : k ∈ GoMap.keys m := by
    by_contra hn
    rw [(GoMap.get?_eq_none_iff m k).mpr hn] at h
    cases h
  exact (List.Perm.mem_iff horder).mpr hk

/-- C1: with a transaction ID the coordinator has not seen, stock for every requested item
and an available agent, `OrderService.PlaceOrder` returns no error, returns the order with
status `confirmed`, and leaves the coordinator's transaction `Committed`. -/
theorem C1_PlaceOrder_succeeds (o : OrderService) (transactionID : String)
    (createdAt txCreatedAt : Nat) (agentOrder : List String) (items : GoMap Int)
    (location : String)
    (hfresh : GoMap.get? o.coordinator.transactions transactionID = none)
    (hstock : ∀ e ∈ items, e.2 ≤ GoMap.index o.store.items e.1)
    (horder : RangeOrder o.delivery.agents agentOrder)
    (hagent : ∃ k agent, GoMap.get? o.delivery.agents k = some agent ∧
      agent.Available = true) :
    (o.PlaceOrder transactionID createdAt txCreatedAt agentOrder items location).2.2 = none ∧
    (o.PlaceOrder transactionID createdAt txCreatedAt agentOrder items location).2.1
      = some { ID := transactionID, Items := items, Location := location,
               Status := "confirmed", CreatedAt := createdAt } ∧
    (o.PlaceOrder transactionID createdAt txCreatedAt agentOrder items
        location).1.coordinator.GetTransactionState transactionID
      = (TransactionState.Committed, none) := by
  have hS := Store.insufficient_eq_false o.store.items items hstock
  obtain ⟨k0, agent0, hget0, hav0⟩ := hagent
  obtain ⟨k, agent, _, _, _, hA⟩ := Delivery.AssignAgent_available o.delivery agentOrder
    transactionID location ⟨k0, RangeOrder.mem_of_get? horder hget0, agent0, hget0, hav0⟩
  simp [OrderService.PlaceOrder, Coordinator.BeginTransaction, hfresh, Store.PlaceOrder, hS, hA,
    Coordinator.Prepare, Coordinator.Commit, Coordinator.GetTransactionState,
    GoMap.get?_set_self, GoMap.set_set]

/-- C1 on the scenario of `main`. -/
theorem C1_PlaceOrder_succeeds_witness :
    (mainService.PlaceOrder "tx1" 1 2 ["agent2", "agent1"] mainItems
        "customer_location").2.2 = none ∧
    (mainService.PlaceOrder "tx1" 1 2 ["agent2", "agent1"] mainItems
        "customer_location").2.1
      = some { ID := "tx1", Items := mainItems, Location := "customer_location",
               Status := "confirmed", CreatedAt := 1 } ∧
    (mainService.PlaceOrder "tx1" 1 2 ["agent2", "agent1"] mainItems
        "customer_location").1.coordinator.GetTransactionState "tx1"
      = (TransactionState.Committed, none) :=
  C1_PlaceOrder_succeeds mainService "tx1" 1 2 ["agent2", "agent1"] mainItems
    "customer_location" (by decide) (by decide)
    (List.Perm.swap "agent1" "agent2" [])
    ⟨"agent1", { ID := "agent1", Available := true, Location := "location1" },
      by decide, rfl⟩

/-- C3: with a transaction ID the coordinator has not seen and an item set in which some
requested quantity exceeds the item's stock, `OrderService.PlaceOrder` returns the store's
insufficient-stock error and no order, and leaves the store (its inventory included) and the
delivery service (every agent's availability included) exactly as they were. -/
theorem C3_PlaceOrder_insufficient_stock (o : OrderService) (transactionID : String)
    (createdAt txCreatedAt : Nat) (agentOrder : List String) (items : GoMap Int)
    (location : String)
    (hfresh : GoMap.get? o.coordinator.transactions transactionID = none)
    (hover : ∃ e ∈ items, GoMap.index o.store.items e.1 < e.2) :
    (o.PlaceOrder transactionID createdAt txCreatedAt agentOrder items location).2
      = (none, some "insufficient items") ∧
    (o.PlaceOrder transactionID createdAt txCreatedAt agentOrder items location).1.store.items
      = o.store.items ∧
    (o.PlaceOrder transactionID createdAt txCreatedAt agentOrder items location).1.store
      = o.store ∧
    (o.PlaceOrder transactionID createdAt txCreatedAt agentOrder items
        location).1.delivery.agents = o.delivery.agents ∧
    (o.PlaceOrder transactionID createdAt txCreatedAt agentOrder items location).1.delivery
      = o.delivery := by
  have hS := Store.insufficient_eq_true o.store.items items hover
  simp [OrderService.PlaceOrder, Coordinator.BeginTransaction, hfresh, Store.PlaceOrder, hS]

/-- C3 on the second scenario of the specification: ten pizzas asked of a stock of five. -/
theorem C3_PlaceOrder_insufficient_stock_witness :
    (mainService.PlaceOrder "tx1" 1 2 ["agent1", "agent2"] [("pizza", 10)]
        "customer_location").2 = (none, some "insufficient items") ∧
    (mainService.PlaceOrder "tx1" 1 2 ["agent1", "agent2"] [("pizza", 10)]
        "customer_location").1.store.items = mainService.store.items ∧
    (mainService.PlaceOrder "tx1" 1 2 ["agent1", "agent2"] [("pizza", 10)]
        "customer_location").1.delivery.agents = mainService.delivery.agents :=
  ⟨(C3_PlaceOrder_insufficient_stock mainService "tx1" 1 2 ["agent1", "agent2"]
      [("pizza", 10)] "customer_location" (by decide) (by decide)).1,
    (C3_PlaceOrder_insufficient_stock mainService "tx1" 1 2 ["agent1", "agent2"]
      [("pizza", 10)] "customer_location" (by decide) (by decide)).2.1,
    (C3_PlaceOrder_insufficient_stock mainService "tx1" 1 2 ["agent1", "agent2"]
      [("pizza", 10)] "customer_location" (by decide) (by decide)).2.2.2.1⟩

/-- C4: with a transaction ID the coordinator has not seen, stock for every requested item
and no available agent, `OrderService.PlaceOrder` returns the no-agents-available error and no
order, the inventory is the one before the call, and the coordinator's transaction is
`Aborted`. -/
theorem C4_PlaceOrder_no_agent (o : OrderService) (transactionID : String)
    (createdAt txCreatedAt : Nat) (agentOrder : List String) (items : GoMap Int)
    (location : String)
    (hfresh : GoMap.get? o.coordinator.transactions transactionID = none)
    (hstock : ∀ e ∈ items, e.2 ≤ GoMap.index o.store.items e.1)
    (hbusy : ∀ k agent, GoMap.get? o.delivery.agents k = some agent →
      agent.Available = false) :
    (o.PlaceOrder transactionID createdAt txCreatedAt agentOrder items location).2
      = (none, some "no delivery agents available") ∧
    (o.PlaceOrder transactionID createdAt txCreatedAt agentOrder items location).1.store.items
      = o.store.items ∧
    (o.PlaceOrder transactionID createdAt txCreatedAt agentOrder items
        location).1.coordinator.GetTransactionState transactionID
      = (TransactionState.Aborted, none) := by
  have hS := Store.insufficient_eq_false o.store.items items hstock
  have hA := Delivery.AssignAgent_none_available o.delivery agentOrder transactionID location
    hbusy
  simp [OrderService.PlaceOrder, Coordinator.BeginTransaction, hfresh, Store.PlaceOrder, hS, hA,
    Coordinator.Abort, Coordinator.GetTransactionState, GoMap.get?_set_self]

/-- C4 on the inventory of `main` with both agents taken. -/
theorem C4_PlaceOrder_no_agent_witness :
    (busyService.PlaceOrder "tx1" 1 2 ["agent1", "agent2"] mainItems
        "customer_location").2 = (none, some "no delivery agents available") ∧
    (busyService.PlaceOrder "tx1" 1 2 ["agent1", "agent2"] mainItems
        "customer_location").1.store.items = busyService.store.items ∧
    (busyService.PlaceOrder "tx1" 1 2 ["agent1", "agent2"] mainItems
        "customer_location").1.coordinator.GetTransactionState "tx1"
      = (TransactionState.Aborted, none) :=
  C4_PlaceOrder_no_agent busyService "tx1" 1 2 ["agent1", "agent2"] mainItems
    "customer_location" (by decide) (by decide) (by
      intro k agent h
      have h1 : GoMap.get? busyService.delivery.agents k
          = if "agent1" = k then
              some { ID := "agent1", Available := false, Location := "location1" }
            else if "agent2" = k then
              some { ID := "agent2", Available := false, Location := "location2" }
            else none := rfl
      rw [h1] at h
      split at h
      · cases h; rfl
      · split at h
        · cases h; rfl
        · cases h)

/-- `OrderService.PlaceOrder` never writes the inventory: whatever it returns, the store's
`items` map is the one it started from. -/
theorem OrderService.PlaceOrder_items (o : OrderService) (transactionID : String)
    (createdAt txCreatedAt : Nat) (agentOrder : List String) (items : GoMap Int)
    (location : String) :
    (o.PlaceOrder transactionID createdAt txCreatedAt agentOrder items location).1.store.items
      = o.store.items := by
  have hst : (o.store.PlaceOrder transactionID items).1.items = o.store.items := by
    unfold Store.PlaceOrder
    split <;> rfl
  unfold OrderService.PlaceOrder
  simp only
  split
  · rfl
  · split
    · rename_i h
      have := congrArg Prod.fst h
      simp only at this
      simpa [← this] using hst
    · rename_i h
      have := congrArg Prod.fst h
      simp only at this
      split
      · simpa [← this] using hst
      · split
        · simpa [← this] using hst
        · split
          · simpa [← this] using hst
          · simpa [← this] using hst

/-- C2, evaluated on the scenario of `main` (inventory pizza 5 and burger 10, order of 2
pizzas and 1 burger): the call succeeds and the inventory still reads pizza 5 and burger 10,
not pizza 3 and burger 9; the order is only recorded as pending in the store. -/
theorem C2_inventory_not_decremented :
    (mainService.PlaceOrder "tx1" 1 2 ["agent1", "agent2"] mainItems
        "customer_location").2.2 = none ∧
    GoMap.index (mainService.PlaceOrder "tx1" 1 2 ["agent1", "agent2"] mainItems
        "customer_location").1.store.items "pizza" = 5 ∧
    GoMap.index (mainService.PlaceOrder "tx1" 1 2 ["agent1", "agent2"] mainItems
        "customer_location").1.store.items "burger" = 10 ∧
    (mainService.PlaceOrder "tx1" 1 2 ["agent1", "agent2"] mainItems
        "customer_location").1.store.items = mainService.store.items := by
  decide

/-- C5, evaluated on the scenario of `main`: the call succeeds, yet both participants answer
`GetState` with the not-found error (their trackers recorded nothing), the store still holds
the pending order and the delivery service still holds the assignment. -/
theorem C5_participants_not_committed :
    (mainService.PlaceOrder "tx1" 1 2 ["agent1", "agent2"] mainItems
        "customer_location").2.2 = none ∧
    (mainService.PlaceOrder "tx1" 1 2 ["agent1", "agent2"] mainItems
        "customer_location").1.store.GetState "tx1"
      = (TransactionState.Initialized, some "transaction not found") ∧
    (mainService.PlaceOrder "tx1" 1 2 ["agent1", "agent2"] mainItems
        "customer_location").1.delivery.GetState "tx1"
      = (TransactionState.Initialized, some "transaction not found") ∧
    GoMap.get? (mainService.PlaceOrder "tx1" 1 2 ["agent1", "agent2"] mainItems
        "customer_location").1.store.orders "tx1" = some mainItems ∧
    GoMap.get? (mainService.PlaceOrder "tx1" 1 2 ["agent1", "agent2"] mainItems
        "customer_location").1.delivery.orders "tx1" = some "agent1" := by
  decide

/-! ## The store's inventory loops -/

theorem wrapInt_of_IsInt64 {x : Int} (h : IsInt64 x) : wrapInt x = x := by
  unfold IsInt64 at h
  unfold wrapInt
  omega

theorem wrapInt_sub_add (x q : Int) : wrapInt (wrapInt (x - q) + q) = wrapInt x := by
  unfold wrapInt
  omega

theorem GoMap.index_set_self (m : GoMap Int) (k : String) (v : Int) :
    GoMap.index (GoMap.set m k v) k = v := by
  simp [GoMap.index, GoMap.get?_set_self]

theorem GoMap.index_set_ne (m : GoMap Int) {k k' : String} (h : k ≠ k') (v : Int) :
    GoMap.index (GoMap.set m k v) k' = GoMap.index m k' := by
  simp [GoMap.index, GoMap.get?_set_ne m h]

theorem GoMap.mem_entries_of_get? {V : Type} (m : GoMap V) (k : String) (v : V)
    (h : GoMap.get? m k = some v) : (k, v) ∈ m := by
  induction m with
  | nil => simp [GoMap.get?] at h
  | cons e rest ih =>
    obtain ⟨k0, v0⟩ := e
    by_cases h0 : k0 = k
    · subst h0
      simp [GoMap.get?] at h
      simp [h]
    · simp only [GoMap.get?, h0, if_false] at h
      exact List.mem_cons_of_mem _ (ih h)

theorem GoMap.get?_of_mem {V : Type} (m : GoMap V) (k : String) (v : V)
    (hnodup : (GoMap.keys m).Nodup) (h : (k, v) ∈ m) : GoMap.get? m k = some v := by
  induction m with
  | nil => simp at h
  | cons e rest ih =>
    obtain ⟨k0, v0⟩ := e
    have hn : k0 ∉ GoMap.keys rest ∧ (GoMap.keys rest).Nodup := by
      simpa [GoMap.keys] using hnodup
    rcases List.mem_cons.mp h with heq | hrest
    · cases heq
      simp [GoMap.get?]
    · have hk : k ∈ GoMap.keys rest := List.mem_map_of_mem Prod.fst hrest
      have h0 : k0 ≠ k := fun e => hn.1 (e ▸ hk)
      simpa [GoMap.get?, h0] using ih hn.2 hrest

/-- A loop that rewrites the entries named by `order` leaves every other key as it reads. -/
theorem GoMap.index_foldl_of_not_mem (g : Int → Int → Int) (order : GoMap Int)
    (inv : GoMap Int) (k : String) (h : k ∉ GoMap.keys order) :
    GoMap.index
      (order.foldl (fun inv e => GoMap.set inv e.1 (g (GoMap.index inv e.1) e.2)) inv) k
      = GoMap.index inv k := by
  induction order generalizing inv with
  | nil => rfl
  | cons e rest ih =>
    have hk : e.1 ≠ k ∧ k ∉ GoMap.keys rest := by
      constructor
      · intro heq
        exact h (by simp [GoMap.keys, ← heq])
      · intro hmem
        exact h (by simp only [GoMap.keys, List.map_cons] at hmem ⊢; exact List.mem_cons_of_mem _ hmem)
    rw [List.foldl_cons, ih _ hk.2, GoMap.index_set_ne _ hk.1]

/-- A loop over an order with distinct keys rewrites each named entry once. -/
theorem GoMap.index_foldl_of_mem (g : Int → Int → Int) (order : GoMap Int) (inv : GoMap Int)
    (k : String) (q : Int) (hnodup : (GoMap.keys order).Nodup) (h : (k, q) ∈ order) :
    GoMap.index
      (order.foldl (fun inv e => GoMap.set inv e.1 (g (GoMap.index inv e.1) e.2)) inv) k
      = g (GoMap.index inv k) q := by
  induction order generalizing inv with
  | nil => simp at h
  | cons e rest ih =>
    obtain ⟨k0, q0⟩ := e
    have hn : k0 ∉ GoMap.keys rest ∧ (GoMap.keys rest).Nodup := by
      simpa [GoMap.keys] using hnodup
    rw [List.foldl_cons]
    rcases List.mem_cons.mp h with heq | hrest
    · cases heq
      rw [GoMap.index_foldl_of_not_mem g rest _ k hn.1, GoMap.index_set_self]
    · have hk : k ∈ GoMap.keys rest := List.mem_map_of_mem Prod.fst hrest
      have h0 : k0 ≠ k := fun e => hn.1 (e ▸ hk)
      rw [ih _ hn.2 hrest, GoMap.index_set_ne _ h0]

theorem Store.insufficient_false_iff (inventory order : GoMap Int) :
    Store.insufficient inventory order = false ↔
      ∀ e ∈ order, e.2 ≤ GoMap.index inventory e.1 := by
  unfold Store.insufficient
  rw [List.any_eq_false]
  constructor
  · intro h e he
    simpa using h e he
  · intro h e he
    simpa using h e he

theorem BaseParticipant.Prepare_of_fresh (p : BaseParticipant) (id : String)
    (h : GoMap.get? p.states id = none ∨
      GoMap.get? p.states id = some TransactionState.Initialized) :
    p.Prepare id = ({ states := GoMap.set p.states id .Prepared }, none) := by
  unfold BaseParticipant.Prepare
  rcases h with h | h <;> simp [h]

/-- C11, as stated, fails: on a store holding 9223372036854775807 pizzas, `PlaceOrder` accepts
an order `t` of minus one pizza; the order is pending, its entry is covered by the stock and
the tracker holds nothing for `t`, `Prepare` returns no error, and the stock then reads
-9223372036854775808, which is not the old quantity minus the reserved one. -/
theorem C11_negative_quantity_wraps :
    (fullStore.PlaceOrder "t" [("pizza", -1)]).2 = none ∧
    GoMap.get? overdrawnStore.orders "t" = some [("pizza", -1)] ∧
    (∀ e ∈ [(("pizza", -1) : String × Int)], e.2 ≤ GoMap.index overdrawnStore.items e.1) ∧
    GoMap.get? overdrawnStore.BaseParticipant.states "t" = none ∧
    (overdrawnStore.Prepare "t").2 = none ∧
    GoMap.index overdrawnStore.items "pizza" = 9223372036854775807 ∧
    GoMap.index (overdrawnStore.Prepare "t").1.items "pizza" = -9223372036854775808 ∧
    GoMap.index (overdrawnStore.Prepare "t").1.items "pizza"
      ≠ GoMap.index overdrawnStore.items "pizza" - (-1) := by
  decide

/-- C11, amended: `Store.Prepare` on an ID without pending order returns the not-found error,
and on a pending order with an entry that asks for more than the stock it returns the
insufficient-stock error, the store unchanged in both cases.  On a pending order (a Go map:
distinct keys) whose every entry is covered by the stock and a tracker holding nothing or
`Initialized` for the ID, it returns no error, each pending item reads its old quantity minus
the reserved one in 64-bit wrap-around arithmetic, which is the exact difference whenever that
difference fits a Go `int`, every other item reads as before, the pending orders are the same,
and the tracker answers `Prepared`. -/
theorem C11_Store_Prepare (s : Store) (id : String) :
    (GoMap.get? s.orders id = none → s.Prepare id = (s, some "order not found")) ∧
    (∀ order, GoMap.get? s.orders id = some order →
      (∃ e ∈ order, GoMap.index s.items e.1 < e.2) →
      s.Prepare id = (s, some "insufficient items")) ∧
    (∀ order, GoMap.get? s.orders id = some order →
      (GoMap.keys order).Nodup →
      (∀ e ∈ order, e.2 ≤ GoMap.index s.items e.1) →
      (GoMap.get? s.BaseParticipant.states id = none ∨
        GoMap.get? s.BaseParticipant.states id = some TransactionState.Initialized) →
      (s.Prepare id).2 = none ∧
      (∀ e ∈ order,
        GoMap.index (s.Prepare id).1.items e.1 = wrapInt (GoMap.index s.items e.1 - e.2)) ∧
      (∀ e ∈ order, IsInt64 (GoMap.index s.items e.1 - e.2) →
        GoMap.index (s.Prepare id).1.items e.1 = GoMap.index s.items e.1 - e.2) ∧
      (∀ k, k ∉ GoMap.keys order →
        GoMap.index (s.Prepare id).1.items k = GoMap.index s.items k) ∧
      (s.Prepare id).1.orders = s.orders ∧
      GoMap.get? (s.Prepare id).1.orders id = some order ∧
      (s.Prepare id).1.GetState id = (TransactionState.Prepared, none)) := by
  refine ⟨?_, ?_, ?_⟩
  · intro h
    simp [Store.Prepare, h]
  · intro order hord hover
    simp [Store.Prepare, hord, Store.insufficient_eq_true s.items order hover]
  · intro order hord hnodup hstock htr
    have hS := Store.insufficient_eq_false s.items order hstock
    have hP := BaseParticipant.Prepare_of_fresh s.BaseParticipant id htr
    have hres : s.Prepare id =
        ({ s with items := Store.reserve s.items order,
                  BaseParticipant := { states := GoMap.set s.BaseParticipant.states id .Prepared } },
          none) := by
      simp [Store.Prepare, hord, hS, hP]
    have hwrap : ∀ e ∈ order,
        GoMap.index (Store.reserve s.items order) e.1
          = wrapInt (GoMap.index s.items e.1 - e.2) := by
      intro e he
      obtain ⟨k, q⟩ := e
      unfold Store.reserve
      exact GoMap.index_foldl_of_mem (fun x y => wrapInt (x - y)) order s.items k q hnodup he
    rw [hres]
    refine ⟨rfl, hwrap, ?_, ?_, rfl, hord, ?_⟩
    · intro e he hfit
      show GoMap.index (Store.reserve s.items order) e.1 = GoMap.index s.items e.1 - e.2
      rw [hwrap e he]
      exact wrapInt_of_IsInt64 hfit
    · intro k hk
      show GoMap.index (Store.reserve s.items order) k = GoMap.index s.items k
      unfold Store.reserve
      exact GoMap.index_foldl_of_not_mem (fun x y => wrapInt (x - y)) order s.items k hk
    · simp [Store.GetState, BaseParticipant.GetState, GoMap.get?_set_self]

/-- C11, amended, on a store with five pizzas and ten burgers and a pending order of two and
one. -/
theorem C11_Store_Prepare_witness :
    (pendingStore.Prepare "t").2 = none ∧
    GoMap.index (pendingStore.Prepare "t").1.items "pizza" = 3 ∧
    GoMap.index (pendingStore.Prepare "t").1.items "burger" = 9 ∧
    (pendingStore.Prepare "t").1.GetState "t" = (TransactionState.Prepared, none) :=
  ⟨((C11_Store_Prepare pendingStore "t").2.2 [("pizza", 2), ("burger", 1)] (by decide)
      (by decide) (by decide) (Or.inl (by decide))).1,
    ((C11_Store_Prepare pendingStore "t").2.2 [("pizza", 2), ("burger", 1)] (by decide)
      (by decide) (by decide) (Or.inl (by decide))).2.2.1 ("pizza", 2) (by decide) (by decide),
    ((C11_Store_Prepare pendingStore "t").2.2 [("pizza", 2), ("burger", 1)] (by decide)
      (by decide) (by decide) (Or.inl (by decide))).2.2.1 ("burger", 1) (by decide) (by decide),
    ((C11_Store_Prepare pendingStore "t").2.2 [("pizza", 2), ("burger", 1)] (by decide)
      (by decide) (by decide) (Or.inl (by decide))).2.2.2.2.2.2⟩

/-- C12, evaluated on a store stocked with seven pizzas in which `t` ordered two and was
prepared (five left): a second `Prepare` of `t` returns the tracker's invalid-state error, yet
the inventory drops from five to three. -/
theorem C12_failed_Prepare_still_reserves :
    GoMap.index preparedStore.items "pizza" = 5 ∧
    preparedStore.GetState "t" = (TransactionState.Prepared, none) ∧
    (preparedStore.Prepare "t").2 = some "invalid transaction state" ∧
    GoMap.index (preparedStore.Prepare "t").1.items "pizza" = 3 := by
  decide

theorem GoMap.index_isInt64 (m : GoMap Int) (h : ∀ e ∈ m, IsInt64 e.2) (k : String) :
    IsInt64 (GoMap.index m k) := by
  unfold GoMap.index
  cases hg : GoMap.get? m k with
  | none => simp [IsInt64]
  | some v => exact h (k, v) (GoMap.mem_entries_of_get? m k v hg)

/-- Reserving an order and releasing it again leaves every item reading as before. -/
theorem Store.release_reserve (inventory order : GoMap Int)
    (hnodup : (GoMap.keys order).Nodup) (hint : ∀ e ∈ inventory, IsInt64 e.2) (k : String) :
    GoMap.index (Store.release (Store.reserve inventory order) order) k
      = GoMap.index inventory k := by
  by_cases hk : k ∈ GoMap.keys order
  · obtain ⟨e, he, hfst⟩ := List.mem_map.mp hk
    obtain ⟨k0, q⟩ := e
    simp only at hfst
    subst hfst
    unfold Store.release
    rw [GoMap.index_foldl_of_mem (fun x y => wrapInt (x + y)) order _ k0 q hnodup he]
    unfold Store.reserve
    rw [GoMap.index_foldl_of_mem (fun x y => wrapInt (x - y)) order _ k0 q hnodup he]
    show wrapInt (wrapInt (GoMap.index inventory k0 - q) + q) = GoMap.index inventory k0
    rw [wrapInt_sub_add]
    exact wrapInt_of_IsInt64 (GoMap.index_isInt64 inventory hint k0)
  · unfold Store.release
    rw [GoMap.index_foldl_of_not_mem (fun x y => wrapInt (x + y)) order _ k hk]
    unfold Store.reserve
    exact GoMap.index_foldl_of_not_mem (fun x y => wrapInt (x - y)) order _ k hk

/-- C13: when `Store.PlaceOrder` of an item set (a Go map: distinct keys) and then
`Store.Prepare` both succeed on a store whose inventory holds Go `int`s, the following
`Store.Abort` returns no error, every item reads exactly as before `PlaceOrder`, the pending
order of the ID is gone and the tracker answers `Aborted`. -/
theorem C13_Store_Abort_compensates (s : Store) (id : String) (items : GoMap Int)
    (hnodup : (GoMap.keys items).Nodup) (hint : ∀ e ∈ s.items, IsInt64 e.2)
    (hplace : (s.PlaceOrder id items).2 = none)
    (_hprep : ((s.PlaceOrder id items).1.Prepare id).2 = none) :
    (((s.PlaceOrder id items).1.Prepare id).1.Abort id).2 = none ∧
    (∀ k, GoMap.index (((s.PlaceOrder id items).1.Prepare id).1.Abort id).1.items k
      = GoMap.index s.items k) ∧
    GoMap.get? (((s.PlaceOrder id items).1.Prepare id).1.Abort id).1.orders id = none ∧
    (((s.PlaceOrder id items).1.Prepare id).1.Abort id).1.GetState id
      = (TransactionState.Aborted, none) := by
  have hS : Store.insufficient s.items items = false := by
    by_contra hc
    simp [Store.PlaceOrder, hc] at hplace
  have h1 : s.PlaceOrder id items
      = ({ s with orders := GoMap.set s.orders id items }, none) := by
    simp [Store.PlaceOrder, hS]
  rw [h1]
  have h2 : Store.Prepare { s with orders := GoMap.set s.orders id items } id
      = ({ s with orders := GoMap.set s.orders id items,
                  items := Store.reserve s.items items,
                  BaseParticipant := (s.BaseParticipant.Prepare id).1 },
          (s.BaseParticipant.Prepare id).2) := by
    simp [Store.Prepare, GoMap.get?_set_self, hS]
  rw [h2]
  refine ⟨?_, ?_, ?_, ?_⟩
  · simp [Store.Abort, BaseParticipant.Abort]
  · intro k
    simp only [Store.Abort, GoMap.get?_set_self]
    exact Store.release_reserve s.items items hnodup hint k
  · simp [Store.Abort, GoMap.get?_set_self, GoMap.get?_delete_self]
  · simp [Store.Abort, Store.GetState, BaseParticipant.Abort, BaseParticipant.GetState,
      GoMap.get?_set_self]

/-- C13 on a store stocked with five pizzas: two are ordered, reserved and given back. -/
theorem C13_Store_Abort_compensates_witness :
    (((stockedStore.PlaceOrder "t" [("pizza", 2)]).1.Prepare "t").1.Abort "t").2 = none ∧
    (∀ k, GoMap.index (((stockedStore.PlaceOrder "t" [("pizza", 2)]).1.Prepare "t").1.Abort
        "t").1.items k = GoMap.index stockedStore.items k) ∧
    GoMap.get? (((stockedStore.PlaceOrder "t" [("pizza", 2)]).1.Prepare "t").1.Abort
        "t").1.orders "t" = none ∧
    (((stockedStore.PlaceOrder "t" [("pizza", 2)]).1.Prepare "t").1.Abort "t").1.GetState "t"
      = (TransactionState.Aborted, none) :=
  C13_Store_Abort_compensates stockedStore "t" [("pizza", 2)] (by decide) (by decide)
    (by decide) (by decide)

/-- C14, evaluated on a store stocked with five pizzas: `PlaceOrder` of two pizzas succeeds
and decrements nothing, and the `Abort` that follows, with no `Prepare` in between, leaves
seven pizzas, not five. -/
theorem C14_Abort_before_Prepare_inflates :
    GoMap.index stockedStore.items "pizza" = 5 ∧
    (stockedStore.PlaceOrder "t" [("pizza", 2)]).2 = none ∧
    GoMap.index (stockedStore.PlaceOrder "t" [("pizza", 2)]).1.items "pizza" = 5 ∧
    ((stockedStore.PlaceOrder "t" [("pizza", 2)]).1.Abort "t").2 = none ∧
    GoMap.index ((stockedStore.PlaceOrder "t" [("pizza", 2)]).1.Abort "t").1.items "pizza"
      = 7 := by
  decide

/-- C15, evaluated on a store holding 9223372036854775807 pizzas and no pending order:
`PlaceOrder` of one pizza succeeds, and the `Abort` that follows adds the never-reserved pizza
to the inventory, which wraps around to -9223372036854775808. -/
theorem C15_inventory_goes_negative :
    fullStore.orders = [] ∧
    fullStore.items = [("pizza", 9223372036854775807)] ∧
    (fullStore.PlaceOrder "t" [("pizza", 1)]).2 = none ∧
    ((fullStore.PlaceOrder "t" [("pizza", 1)]).1.Abort "t").2 = none ∧
    GoMap.index ((fullStore.PlaceOrder "t" [("pizza", 1)]).1.Abort "t").1.items "pizza"
      = -9223372036854775808 := by
  decide

/-! ## The delivery service -/

/-- What `AssignAgent` returns: either the no-agents error with the service unchanged, or no
error after taking one visited agent that was available. -/
theorem Delivery.AssignAgent_cases (d : Delivery) (order : List String) (id location : String) :
    d.AssignAgent order id location = (d, some "no delivery agents available") ∨
    ∃ k agent, k ∈ order ∧ GoMap.get? d.agents k = some agent ∧ agent.Available = true ∧
      d.AssignAgent order id location =
        ({ d with agents := GoMap.set d.agents k { agent with Available := false },
                  orders := GoMap.set d.orders id agent.ID }, none) := by
  induction order with
  | nil => exact Or.inl rfl
  | cons k0 rest ih =>
    unfold Delivery.AssignAgent
    have hrest : (d.AssignAgent rest id location = (d, some "no delivery agents available") ∨
        ∃ k agent, k ∈ k0 :: rest ∧ GoMap.get? d.agents k = some agent ∧
          agent.Available = true ∧
          d.AssignAgent rest id location =
            ({ d with agents := GoMap.set d.agents k { agent with Available := false },
                      orders := GoMap.set d.orders id agent.ID }, none)) := by
      rcases ih with h | ⟨k, agent, hk, hget, hav, heq⟩
      · exact Or.inl h
      · exact Or.inr ⟨k, agent, List.mem_cons_of_mem _ hk, hget, hav, heq⟩
    cases hg : GoMap.get? d.agents k0 with
    | none => simpa using hrest
    | some agent0 =>
      by_cases hav0 : agent0.Available = true
      · exact Or.inr ⟨k0, agent0, List.mem_cons_self _ _, hg, hav0, by simp [hav0]⟩
      · simpa [hav0] using hrest

/-- C16: when `AssignAgent` visits the agents in a `range` order, it returns the
no-agents-available error exactly when no agent is available, and then returns the service
unchanged; otherwise it returns no error, and one agent that was available is now stored
unavailable, its `ID` is the assignment recorded for the transaction, and every other agent,
every other assignment and the tracker are as before. -/
theorem C16_AssignAgent (d : Delivery) (order : List String) (id location : String)
    (horder : RangeOrder d.agents order) :
    ((d.AssignAgent order id location).2 = some "no delivery agents available" ↔
      ∀ k agent, GoMap.get? d.agents k = some agent → agent.Available = false) ∧
    ((d.AssignAgent order id location).2 ≠ none →
      d.AssignAgent order id location = (d, some "no delivery agents available")) ∧
    ((d.AssignAgent order id location).2 = none →
      ∃ k agent, GoMap.get? d.agents k = some agent ∧ agent.Available = true ∧
        GoMap.get? (d.AssignAgent order id location).1.agents k
          = some { agent with Available := false } ∧
        GoMap.get? (d.AssignAgent order id location).1.orders id = some agent.ID ∧
        (∀ k', k' ≠ k →
          GoMap.get? (d.AssignAgent order id location).1.agents k'
            = GoMap.get? d.agents k') ∧
        (∀ id', id' ≠ id →
          GoMap.get? (d.AssignAgent order id location).1.orders id'
            = GoMap.get? d.orders id') ∧
        (d.AssignAgent order id location).1.BaseParticipant = d.BaseParticipant) := by
  refine ⟨?_, ?_, ?_⟩
  · constructor
    · intro herr k agent hget
      by_contra hav
      have hav' : agent.Available = true := by simpa using hav
      obtain ⟨_, _, _, _, _, heq⟩ := Delivery.AssignAgent_available d order id location
        ⟨k, RangeOrder.mem_of_get? horder hget, agent, hget, hav'⟩
      rw [heq] at herr
      cases herr
    · intro hnone
      rw [Delivery.AssignAgent_none_available d order id location hnone]
  · intro herr
    rcases Delivery.AssignAgent_cases d order id location with h | ⟨_, _, _, _, _, heq⟩
    · exact h
    · rw [heq] at herr
      exact absurd rfl herr
  · intro hok
    rcases Delivery.AssignAgent_cases d order id location with h | ⟨k, agent, _, hget, hav, heq⟩
    · rw [h] at hok
      cases hok
    · refine ⟨k, agent, hget, hav, ?_⟩
      rw [heq]
      refine ⟨?_, ?_, ?_, ?_, rfl⟩
      · simp [GoMap.get?_set_self]
      · simp [GoMap.get?_set_self]
      · intro k' hne
        simp [GoMap.get?_set_ne _ (Ne.symm hne)]
      · intro id' hne
        simp [GoMap.get?_set_ne _ (Ne.symm hne)]

/-- C16 on the two agents of `main`, visited `agent2` first. -/
theorem C16_AssignAgent_witness :
    (mainService.delivery.AssignAgent ["agent2", "agent1"] "tx1" "customer_location").2
        = some "no delivery agents available" ↔
      ∀ k agent, GoMap.get? mainService.delivery.agents k = some agent →
        agent.Available = false :=
  (C16_AssignAgent mainService.delivery ["agent2", "agent1"] "tx1" "customer_location"
    (List.Perm.swap "agent1" "agent2" [])).1

/-- C17: on the tracker, on the store and on the delivery service, a `Commit` that directly
follows a successful `Commit` of the same ID returns the not-in-prepared-state error and the
very state the first `Commit` left. -/
theorem C17_Commit_retry_fails (p : BaseParticipant) (s : Store) (d : Delivery) (id : String) :
    ((p.Commit id).2 = none →
      (p.Commit id).1.Commit id = ((p.Commit id).1, some "transaction not in prepared state")) ∧
    ((s.Commit id).2 = none →
      (s.Commit id).1.Commit id = ((s.Commit id).1, some "transaction not in prepared state")) ∧
    ((d.Commit id).2 = none →
      (d.Commit id).1.Commit id
        = ((d.Commit id).1, some "transaction not in prepared state")) := by
  have hbase : ∀ q : BaseParticipant, (q.Commit id).2 = none →
      (q.Commit id).1.Commit id
        = ((q.Commit id).1, some "transaction not in prepared state") := by
    intro q hq
    unfold BaseParticipant.Commit at hq ⊢
    cases hg : GoMap.get? q.states id with
    | none => simp [hg] at hq
    | some st =>
      by_cases hs : st = .Prepared
      · simp [hs, GoMap.get?_set_self]
      · simp [hg, hs] at hq
  refine ⟨hbase p, ?_, ?_⟩
  · intro hs
    have h1 : (s.BaseParticipant.Commit id).2 = none := hs
    have h2 := hbase s.BaseParticipant h1
    simp [Store.Commit, h2, GoMap.delete_delete]
  · intro hd
    have h1 : (d.BaseParticipant.Commit id).2 = none := hd
    have h2 := hbase d.BaseParticipant h1
    simp [Delivery.Commit, h2, GoMap.delete_delete]

/-- C17 on the store in which `t` has been prepared. -/
theorem C17_Commit_retry_fails_witness :
    (preparedStore.Commit "t").1.Commit "t"
      = ((preparedStore.Commit "t").1, some "transaction not in prepared state") :=
  (C17_Commit_retry_fails preparedStore.BaseParticipant preparedStore pendingDelivery "t").2.1
    (by decide)

/-- C19: on a delivery service whose agents carry their keys as `ID`, a `Prepare` that
directly follows a successful `AssignAgent` of the same transaction returns the
delivery-agent-not-available error and the service as `AssignAgent` left it; the tracker is
the one from before the assignment, so it answers `GetState` as it did then. -/
theorem C19_Prepare_after_AssignAgent (d : Delivery) (order : List String)
    (id location : String) (hwf : d.AgentIDsMatch)
    (hok : (d.AssignAgent order id location).2 = none) :
    (d.AssignAgent order id location).1.Prepare id
      = ((d.AssignAgent order id location).1, some "delivery agent not available") ∧
    (d.AssignAgent order id location).1.BaseParticipant = d.BaseParticipant ∧
    ((d.AssignAgent order id location).1.Prepare id).1.GetState id = d.GetState id := by
  rcases Delivery.AssignAgent_cases d order id location with h | ⟨k, agent, _, hget, hav, heq⟩
  · rw [h] at hok
    cases hok
  · have hid : agent.ID = k := hwf (k, agent) (GoMap.mem_entries_of_get? d.agents k agent hget)
    rw [heq]
    simp [Delivery.Prepare, Delivery.GetState, GoMap.get?_set_self, hid]

/-- C19 on the two agents of `main`. -/
theorem C19_Prepare_after_AssignAgent_witness :
    (mainService.delivery.AssignAgent ["agent1", "agent2"] "tx1" "x").1.Prepare "tx1"
      = ((mainService.delivery.AssignAgent ["agent1", "agent2"] "tx1" "x").1,
          some "delivery agent not available") :=
  (C19_Prepare_after_AssignAgent mainService.delivery ["agent1", "agent2"] "tx1" "x"
    (by decide) (by decide)).1

/-! ## The order registry -/

/-- `OrderService.PlaceOrder` leaves the orders stored under other IDs as they are. -/
theorem OrderService.PlaceOrder_other_orders (o : OrderService) (transactionID : String)
    (createdAt txCreatedAt : Nat) (agentOrder : List String) (items : GoMap Int)
    (location : String) (orderID : String) (hne : orderID ≠ transactionID) :
    (o.PlaceOrder transactionID createdAt txCreatedAt agentOrder items location).1.GetOrder
        orderID = o.GetOrder orderID := by
  have hne' : transactionID ≠ orderID := Ne.symm hne
  have hget : GoMap.get? (o.PlaceOrder transactionID createdAt txCreatedAt agentOrder items
      location).1.orders orderID = GoMap.get? o.orders orderID := by
    unfold OrderService.PlaceOrder
    simp only
    split
    · simp [GoMap.get?_set_ne _ hne']
    · split
      · simp [GoMap.get?_set_ne _ hne']
      · split
        · simp [GoMap.get?_set_ne _ hne']
        · split
          · simp [GoMap.get?_set_ne _ hne']
          · split
            · simp [GoMap.get?_set_ne _ hne']
            · simp [GoMap.get?_set_ne _ hne']
  unfold OrderService.GetOrder
  rw [hget]

/-- C18, evaluated on the state of `main` after its order `tx1` was confirmed: a second
`PlaceOrder` whose generated ID is again `tx1` returns the already-exists error, and `GetOrder`
of `tx1` now returns the new pending order in place of the confirmed one. -/
theorem C18_colliding_ID_replaces_order :
    confirmedService.GetOrder "tx1"
      = (some { ID := "tx1", Items := mainItems, Location := "customer_location",
                Status := "confirmed", CreatedAt := 1 }, none) ∧
    (confirmedService.PlaceOrder "tx1" 3 4 ["agent1", "agent2"] [("burger", 1)]
        "elsewhere").2 = (none, some "transaction already exists") ∧
    (confirmedService.PlaceOrder "tx1" 3 4 ["agent1", "agent2"] [("burger", 1)]
        "elsewhere").1.GetOrder "tx1"
      = (some { ID := "tx1", Items := [("burger", 1)], Location := "elsewhere",
                Status := "pending", CreatedAt := 3 }, none) := by
  decide

/-! ## Runs of the delivery service -/

theorem GoMap.mem_set {V : Type} (m : GoMap V) (k : String) (v : V) (e : String × V)
    (h : e ∈ GoMap.set m k v) : e = (k, v) ∨ e ∈ m := by
  induction m with
  | nil =>
    simp only [GoMap.set, List.mem_singleton] at h
    exact Or.inl h
  | cons e0 rest ih =>
    obtain ⟨k0, v0⟩ := e0
    by_cases h0 : k0 = k
    · simp only [GoMap.set, h0, if_true] at h
      rcases List.mem_cons.mp h with h1 | h1
      · exact Or.inl h1
      · exact Or.inr (List.mem_cons_of_mem _ h1)
    · simp only [GoMap.set, h0, if_false] at h
      rcases List.mem_cons.mp h with h1 | h1
      · exact Or.inr (h1 ▸ List.mem_cons_self _ _)
      · rcases ih h1 with h2 | h2
        · exact Or.inl h2
        · exact Or.inr (List.mem_cons_of_mem _ h2)

theorem GoMap.keys_set_of_get?_some {V : Type} (m : GoMap V) (k : String) (v v0 : V)
    (h : GoMap.get? m k = some v0) : GoMap.keys (GoMap.set m k v) = GoMap.keys m := by
  induction m with
  | nil => simp [GoMap.get?] at h
  | cons e0 rest ih =>
    obtain ⟨k0, w0⟩ := e0
    by_cases h0 : k0 = k
    · simp [GoMap.set, GoMap.keys, h0]
    · simp only [GoMap.get?, h0, if_false] at h
      have := ih h
      simp only [GoMap.keys] at this
      simp [GoMap.set, GoMap.keys, h0, this]

theorem GoMap.keys_set_of_get?_none {V : Type} (m : GoMap V) (k : String) (v : V)
    (h : GoMap.get? m k = none) : GoMap.keys (GoMap.set m k v) = GoMap.keys m ++ [k] := by
  induction m with
  | nil => simp [GoMap.set, GoMap.keys]
  | cons e0 rest ih =>
    obtain ⟨k0, w0⟩ := e0
    by_cases h0 : k0 = k
    · simp [GoMap.get?, h0] at h
    · simp only [GoMap.get?, h0, if_false] at h
      have := ih h
      simp only [GoMap.keys] at this
      simp [GoMap.set, GoMap.keys, h0, this]

/-- Rewriting the availability of a stored agent keeps every `ID` equal to its key. -/
theorem Delivery.AgentIDsMatch_set (agents : GoMap DeliveryAgent) (k : String)
    (agent : DeliveryAgent) (b : Bool) (hwf : ∀ e ∈ agents, e.2.ID = e.1)
    (hget : GoMap.get? agents k = some agent) :
    ∀ e ∈ GoMap.set agents k { agent with Available := b }, e.2.ID = e.1 := by
  intro e he
  rcases GoMap.mem_set _ _ _ _ he with h | h
  · subst h
    exact hwf (k, agent) (GoMap.mem_entries_of_get? agents k agent hget)
  · exact hwf e h

/-- What `Delivery.Prepare` does to the agents and the assignments. -/
theorem Delivery.Prepare_cases (d : Delivery) (id : String) :
    (d.Prepare id).1.orders = d.orders ∧
    ((d.Prepare id).1.agents = d.agents ∨
      ∃ a agent, GoMap.get? d.agents a = some agent ∧
        (d.Prepare id).1.agents = GoMap.set d.agents a { agent with Available := false }) := by
  unfold Delivery.Prepare
  cases ho : GoMap.get? d.orders id with
  | none => exact ⟨rfl, Or.inl rfl⟩
  | some a =>
    cases ha : GoMap.get? d.agents a with
    | none => simp [ha]
    | some agent =>
      by_cases hav : agent.Available = true
      · simp only [ha, hav]
        exact ⟨rfl, Or.inr ⟨a, agent, ha, rfl⟩⟩
      · simp [ha, hav]

/-- What `Delivery.Abort` does to the agents and the assignments. -/
theorem Delivery.Abort_cases (d : Delivery) (id : String) :
    (d.Abort id).1.orders = GoMap.delete d.orders id ∧
    ((d.Abort id).1.agents = d.agents ∨
      ∃ a agent, GoMap.get? d.orders id = some a ∧ GoMap.get? d.agents a = some agent ∧
        (d.Abort id).1.agents = GoMap.set d.agents a { agent with Available := true }) := by
  unfold Delivery.Abort
  cases ho : GoMap.get? d.orders id with
  | none => exact ⟨(GoMap.delete_of_get?_none _ _ ho).symm, Or.inl rfl⟩
  | some a =>
    cases ha : GoMap.get? d.agents a with
    | none => simp [ha]
    | some agent =>
      refine ⟨by simp [ha], Or.inr ⟨a, agent, rfl, ha, by simp [ha]⟩⟩

theorem GoMap.get?_delete_some {V : Type} (m : GoMap V) (k k' : String) (v : V)
    (h : GoMap.get? (GoMap.delete m k) k' = some v) : k ≠ k' ∧ GoMap.get? m k' = some v := by
  have hne : k ≠ k' := by
    intro heq
    subst heq
    rw [GoMap.get?_delete_self] at h
    cases h
  exact ⟨hne, by rw [← GoMap.get?_delete_ne m hne]; exact h⟩

/-- Deleting an assignment keeps the assignments free of double use. -/
theorem Delivery.NoDoubleAssignment_delete (d d' : Delivery) (id : String)
    (hinv : d.NoDoubleAssignment) (hagents : d'.agents = d.agents)
    (horders : d'.orders = GoMap.delete d.orders id) : d'.NoDoubleAssignment := by
  unfold Delivery.NoDoubleAssignment
  rw [hagents, horders]
  refine ⟨?_, ?_⟩
  · intro t a h
    exact hinv.1 t a (GoMap.get?_delete_some _ _ _ _ h).2
  · intro t1 t2 a h1 h2
    exact hinv.2 t1 t2 a (GoMap.get?_delete_some _ _ _ _ h1).2
      (GoMap.get?_delete_some _ _ _ _ h2).2

/-- One call keeps the agents' `ID`s equal to their keys and the assignments free of double
use, provided an `AddAgent` call brings an ID that is not stored yet. -/
theorem Delivery.step_invariant (d : Delivery) (op : DeliveryOp) (hwf : d.AgentIDsMatch)
    (hinv : d.NoDoubleAssignment)
    (hfresh : ∀ agentID location, op = DeliveryOp.addAgent agentID location →
      GoMap.get? d.agents agentID = none) :
    (d.step op).AgentIDsMatch ∧ (d.step op).NoDoubleAssignment := by
  cases op with
  | addAgent agentID location =>
    have hnone := hfresh agentID location rfl
    refine ⟨?_, ?_, ?_⟩
    · intro e he
      rcases GoMap.mem_set _ _ _ _ he with h | h
      · subst h
        rfl
      · exact hwf e h
    · intro t a h
      obtain ⟨agent, hag, hav⟩ := hinv.1 t a h
      have hne : agentID ≠ a := by
        intro heq
        subst heq
        rw [hnone] at hag
        cases hag
      exact ⟨agent, by
        show GoMap.get? (GoMap.set d.agents agentID _) a = some agent
        rw [GoMap.get?_set_ne _ hne]
        exact hag, hav⟩
    · exact hinv.2
  | assignAgent order t location =>
    rcases Delivery.AssignAgent_cases d order t location with h | ⟨k, agent, _, hget, hav, heq⟩
    · simp only [Delivery.step, h]
      exact ⟨hwf, hinv⟩
    · have hid : agent.ID = k := hwf (k, agent) (GoMap.mem_entries_of_get? d.agents k agent hget)
      subst hid
      simp only [Delivery.step, heq]
      refine ⟨Delivery.AgentIDsMatch_set d.agents agent.ID agent false hwf hget, ?_, ?_⟩
      · intro t' a h
        simp only at h ⊢
        by_cases ht : t = t'
        · subst ht
          rw [GoMap.get?_set_self] at h
          cases h
          exact ⟨_, GoMap.get?_set_self _ _ _, rfl⟩
        · rw [GoMap.get?_set_ne _ ht] at h
          obtain ⟨agent', hag, hav'⟩ := hinv.1 t' a h
          have hne : agent.ID ≠ a := by
            intro hka
            rw [← hka, hget] at hag
            cases hag
            rw [hav] at hav'
            cases hav'
          exact ⟨agent', by rw [GoMap.get?_set_ne _ hne]; exact hag, hav'⟩
      · intro t1 t2 a h1 h2
        simp only at h1 h2
        have hclash : ∀ t', GoMap.get? d.orders t' = some agent.ID → False := by
          intro t' h'
          obtain ⟨agent', hag, hav'⟩ := hinv.1 t' agent.ID h'
          rw [hget] at hag
          cases hag
          rw [hav] at hav'
          cases hav'
        by_cases ht1 : t = t1
        · by_cases ht2 : t = t2
          · rw [← ht1, ← ht2]
          · subst ht1
            rw [GoMap.get?_set_self] at h1
            cases h1
            rw [GoMap.get?_set_ne _ ht2] at h2
            exact absurd h2 (fun h => hclash t2 h)
        · by_cases ht2 : t = t2
          · subst ht2
            rw [GoMap.get?_set_self] at h2
            cases h2
            rw [GoMap.get?_set_ne _ ht1] at h1
            exact absurd h1 (fun h => hclash t1 h)
          · rw [GoMap.get?_set_ne _ ht1] at h1
            rw [GoMap.get?_set_ne _ ht2] at h2
            exact hinv.2 t1 t2 a h1 h2
  | prepare id =>
    obtain ⟨horders, hagents⟩ := Delivery.Prepare_cases d id
    simp only [Delivery.step]
    unfold Delivery.AgentIDsMatch Delivery.NoDoubleAssignment
    rw [horders]
    rcases hagents with hag | ⟨a, agent, hget, hag⟩
    · rw [hag]
      exact ⟨hwf, hinv⟩
    · rw [hag]
      refine ⟨Delivery.AgentIDsMatch_set d.agents a agent false hwf hget, ?_, hinv.2⟩
      intro t' a' h
      obtain ⟨agent', hag', hav'⟩ := hinv.1 t' a' h
      by_cases hne : a = a'
      · subst hne
        exact ⟨_, GoMap.get?_set_self _ _ _, rfl⟩
      · exact ⟨agent', by rw [GoMap.get?_set_ne _ hne]; exact hag', hav'⟩
  | commit id =>
    refine ⟨hwf, Delivery.NoDoubleAssignment_delete d _ id hinv rfl rfl⟩
  | abort id =>
    obtain ⟨horders, hagents⟩ := Delivery.Abort_cases d id
    simp only [Delivery.step]
    rcases hagents with hag | ⟨a, agent, hord, hget, hag⟩
    · refine ⟨?_, Delivery.NoDoubleAssignment_delete d _ id hinv hag horders⟩
      unfold Delivery.AgentIDsMatch
      rw [hag]
      exact hwf
    · unfold Delivery.AgentIDsMatch Delivery.NoDoubleAssignment
      rw [horders, hag]
      refine ⟨Delivery.AgentIDsMatch_set d.agents a agent true hwf hget, ?_, ?_⟩
      · intro t' a' h
        obtain ⟨hne, h'⟩ := GoMap.get?_delete_some _ _ _ _ h
        obtain ⟨agent', hag', hav'⟩ := hinv.1 t' a' h'
        have hna : a ≠ a' := by
          intro heq
          subst heq
          exact hne (hinv.2 id t' a hord h')
        exact ⟨agent', by rw [GoMap.get?_set_ne _ hna]; exact hag', hav'⟩
      · intro t1 t2 a' h1 h2
        exact hinv.2 t1 t2 a' (GoMap.get?_delete_some _ _ _ _ h1).2
          (GoMap.get?_delete_some _ _ _ _ h2).2

/-- The keys of the agents map after one call: those before, then the ID a fresh `AddAgent`
brings. -/
theorem Delivery.step_keys (d : Delivery) (op : DeliveryOp)
    (hfresh : ∀ agentID location, op = DeliveryOp.addAgent agentID location →
      GoMap.get? d.agents agentID = none) :
    GoMap.keys (d.step op).agents = GoMap.keys d.agents ++ addedAgentIDs [op] := by
  cases op with
  | addAgent agentID location =>
    simp only [Delivery.step, Delivery.AddAgent, addedAgentIDs]
    exact GoMap.keys_set_of_get?_none _ _ _ (hfresh agentID location rfl)
  | assignAgent order t location =>
    simp only [Delivery.step, addedAgentIDs, List.append_nil]
    rcases Delivery.AssignAgent_cases d order t location with h | ⟨k, agent, _, hget, _, heq⟩
    · rw [h]
    · rw [heq]
      exact GoMap.keys_set_of_get?_some _ _ _ _ hget
  | prepare id =>
    simp only [Delivery.step, addedAgentIDs, List.append_nil]
    rcases (Delivery.Prepare_cases d id).2 with hag | ⟨a, agent, hget, hag⟩
    · rw [hag]
    · rw [hag]
      exact GoMap.keys_set_of_get?_some _ _ _ _ hget
  | commit id => simp [Delivery.step, Delivery.Commit, addedAgentIDs]
  | abort id =>
    simp only [Delivery.step, addedAgentIDs, List.append_nil]
    rcases (Delivery.Abort_cases d id).2 with hag | ⟨a, agent, _, hget, hag⟩
    · rw [hag]
    · rw [hag]
      exact GoMap.keys_set_of_get?_some _ _ _ _ hget

theorem addedAgentIDs_cons (op : DeliveryOp) (rest : List DeliveryOp) :
    addedAgentIDs (op :: rest) = addedAgentIDs [op] ++ addedAgentIDs rest := by
  cases op <;> simp [addedAgentIDs]

/-- The invariant along a run whose added agent IDs are distinct from each other and from
the IDs stored at the start. -/
theorem Delivery.run_invariant (ops : List DeliveryOp) (d : Delivery) (hwf : d.AgentIDsMatch)
    (hinv : d.NoDoubleAssignment)
    (hdistinct : (GoMap.keys d.agents ++ addedAgentIDs ops).Nodup) :
    (d.run ops).AgentIDsMatch ∧ (d.run ops).NoDoubleAssignment := by
  induction ops generalizing d with
  | nil => exact ⟨hwf, hinv⟩
  | cons op rest ih =>
    have hfresh : ∀ agentID location, op = DeliveryOp.addAgent agentID location →
        GoMap.get? d.agents agentID = none := by
      intro agentID location hop
      subst hop
      rw [GoMap.get?_eq_none_iff]
      intro hmem
      simp only [addedAgentIDs] at hdistinct
      have := (List.nodup_append.mp hdistinct).2.2
      exact this hmem (List.mem_cons_self _ _)
    obtain ⟨hwf', hinv'⟩ := Delivery.step_invariant d op hwf hinv hfresh
    have hkeys := Delivery.step_keys d op hfresh
    have hd' : (GoMap.keys (d.step op).agents ++ addedAgentIDs rest).Nodup := by
      rw [hkeys, List.append_assoc, ← addedAgentIDs_cons]
      exact hdistinct
    exact ih (d.step op) hwf' hinv' hd'

/-- C20: start from a delivery service without assignments whose agents carry their keys as
`ID`, and run any sequence of `AddAgent`, `AssignAgent` (visiting the agents in any order),
`Prepare`, `Commit` and `Abort` calls in which the added agent IDs are distinct from each
other and from the IDs already stored.  Afterwards every agent named in an assignment exists
and is unavailable, and no two transaction IDs are assigned the same agent. -/
theorem C20_no_double_assignment (d : Delivery) (ops : List DeliveryOp)
    (hstart : d.orders = []) (hwf : d.AgentIDsMatch)
    (hdistinct : (GoMap.keys d.agents ++ addedAgentIDs ops).Nodup) :
    (d.run ops).NoDoubleAssignment := by
  have hinv : d.NoDoubleAssignment := by
    unfold Delivery.NoDoubleAssignment
    rw [hstart]
    exact ⟨fun t a h => by simp [GoMap.get?] at h, fun t1 t2 a h => by simp [GoMap.get?] at h⟩
  exact (Delivery.run_invariant ops d hwf hinv hdistinct).2

/-- C20 from the empty delivery service: two agents are added, two transactions are served,
one is aborted and a third takes the released agent. -/
theorem C20_no_double_assignment_witness :
    (NewDelivery.run
      [DeliveryOp.addAgent "agent1" "location1", DeliveryOp.addAgent "agent2" "location2",
        DeliveryOp.assignAgent ["agent2", "agent1"] "t1" "x",
        DeliveryOp.assignAgent ["agent1", "agent2"] "t2" "y",
        DeliveryOp.abort "t1",
        DeliveryOp.assignAgent ["agent1", "agent2"] "t3" "z"]).NoDoubleAssignment :=
  C20_no_double_assignment NewDelivery _ rfl (by decide) (by decide)

end DistributedTransactions
